import Mathlib

/-!
Verification development for the wastewater dashboard (src/app.js).

The file shallowly embeds the pure data-processing core of the dashboard:
the calendar-week parser (`parseKW`, `formatDateAsKW`), the CSV parsers
(`parseCSV`, `parseDemographicsCSV`), the Plotly trace extractor (both
variants of `extractAllTraces`), the SARI filter/aggregation functions
(`filterSariData`, `aggregateDemographicsData`, `aggregateHeatmapData`,
the per-100k normalisation steps) and the colour utility (`lightenColor`).

Dates are modelled as proleptic-Gregorian day numbers (rata die, day 1 =
Monday, 1 Jan of year 1), which matches the JavaScript `Date` arithmetic
used by the source (whole-day local-midnight differences, no DST offsets).
JavaScript numbers are modelled as `Int` where the source only performs
integer arithmetic and as `ℚ` where it divides.
-/

/-! ### JavaScript string primitives -/

/-- Decimal digit test, as the regex class `\d`. -/
def jsIsDigitChar (c : Char) : Bool := '0' ≤ c && c ≤ '9'

/-- Numeric value of a decimal digit character. -/
def digitVal (c : Char) : Nat := c.toNat - 48

/-- Whitespace test, as the regex class `\s` / `String.prototype.trim`. -/
def jsIsSpaceChar (c : Char) : Bool :=
  c == ' ' || c == '\t' || c == '\n' || c == '\r' || c == '\x0b' || c == '\x0c'

/-- Greedy scan of a decimal digit run, accumulating its value (as `\d+`). -/
def takeDigits (acc : Nat) : List Char → Nat × List Char
  | [] => (acc, [])
  | c :: cs => if jsIsDigitChar c then takeDigits (acc * 10 + digitVal c) cs else (acc, c :: cs)

/-- Reads a nonempty leading digit run, as the regex fragment `(\d+)`. -/
def readNat (cs : List Char) : Option (Nat × List Char) :=
  match cs with
  | c :: _ => if jsIsDigitChar c then some (takeDigits 0 cs) else none
  | [] => none

/-- Drops leading whitespace, as the regex fragment `\s*`. -/
def skipSpaces (cs : List Char) : List Char := cs.dropWhile jsIsSpaceChar

/-! ### Proleptic Gregorian calendar (rata die day numbers) -/

/-- Gregorian leap-year rule. -/
def isLeapYear (y : Nat) : Bool := (y % 4 == 0 && y % 100 != 0) || y % 400 == 0

/-- Days strictly before 1 January of year `y`, counted from 1 January of year 1. -/
def daysBeforeYear (y : Nat) : Nat :=
  365 * (y - 1) + (y - 1) / 4 - (y - 1) / 100 + (y - 1) / 400

/-- Days before the first of month `m` within a year (`leap` marks a leap year). -/
def daysBeforeMonth (leap : Bool) (m : Nat) : Nat :=
  (match m with
   | 0 => 0 | 1 => 0 | 2 => 31 | 3 => 59 | 4 => 90 | 5 => 120 | 6 => 151
   | 7 => 181 | 8 => 212 | 9 => 243 | 10 => 273 | 11 => 304 | 12 => 334
   | _ => 365) + (if leap && m ≥ 3 then 1 else 0)

/-- Rata die day number of the calendar date `y`-`m`-`d` (day 1 is Monday, 1 Jan year 1). -/
def rataDie (y m d : Nat) : Int :=
  ((daysBeforeYear y + daysBeforeMonth (isLeapYear y) m + d : Nat) : Int)

/-- Two-digit years are mapped to 1900+y by the JavaScript `Date(year, ...)` constructor. -/
def jsYearAdjust (y : Nat) : Nat := if y ≤ 99 then 1900 + y else y

/-- Weekday of a day number in JavaScript `getDay` convention: 0 = Sunday … 6 = Saturday. -/
def jsGetDay (d : Int) : Int := d % 7

/-! ### parseKW (src/app.js lines 308–325) -/

/-- Monday of ISO calendar week `week` of `year`, exactly as computed by `parseKW`:
January 4 is taken, the weekday (Sunday mapped to 7) minus one is stepped back,
and `(week-1)*7` days are added. -/
def parseKWFromWeekYear (week year : Nat) : Int :=
  let jan4 : Int := rataDie (jsYearAdjust year) 1 4
  let dayOfWeek : Int := if jsGetDay jan4 == 0 then 7 else jsGetDay jan4
  let mondayKW1 : Int := jan4 - dayOfWeek + 1
  mondayKW1 + 7 * ((week : Int) - 1)

/-- Attempts the regex `(\d+)\.\s*KW\s*(\d+)` at the head of the character list. -/
def matchKWAt (cs : List Char) : Option (Nat × Nat) :=
  match readNat cs with
  | none => none
  | some (w, r1) =>
    match r1 with
    | '.' :: r2 =>
      match skipSpaces r2 with
      | 'K' :: 'W' :: r4 =>
        match readNat (skipSpaces r4) with
        | some (y, _) => some (w, y)
        | none => none
      | _ => none
    | _ => none

/-- Leftmost match of the regex `(\d+)\.\s*KW\s*(\d+)`, as `String.prototype.match`. -/
def findKWMatch : List Char → Option (Nat × Nat)
  | [] => none
  | c :: cs =>
    match matchKWAt (c :: cs) with
    | some r => some r
    | none => findKWMatch cs

/-- The source function `parseKW`: converts a label such as "19. KW 2023" to the
Monday of that ISO calendar week, or `none` when the pattern does not match. -/
def parseKW (s : String) : Option Int :=
  (findKWMatch s.data).map (fun p => parseKWFromWeekYear p.1 p.2)

/-! ### formatDateAsKW (src/app.js lines 785–790) -/

/-- Descending search for the year containing day number `n` (first argument is fuel). -/
def yearSearch (n : Nat) : Nat → Nat → Nat
  | 0, y => y
  | fuel + 1, y => if daysBeforeYear y < n then y else yearSearch n fuel (y - 1)

/-- Year of a day number, as JavaScript `Date.prototype.getFullYear`. -/
def getFullYear (d : Int) : Nat :=
  yearSearch d.toNat d.toNat ((d.toNat - 1) / 365 + 1)

/-- Ceiling of `a / 7`, as `Math.ceil` applied to an exact division by 7
(for the divisor 7 the ceiling equals the negated floor division of the negation). -/
def ceilDiv7 (a : Int) : Int := -(-a / 7)

/-- Week number computed by `formatDateAsKW`: the simplified day-of-year formula
`Math.ceil((days + startOfYear.getDay() + 1) / 7)`. -/
def formatKWWeek (d : Int) : Int :=
  let startOfYear : Int := rataDie (getFullYear d) 1 1
  let days : Int := d - startOfYear
  ceilDiv7 (days + jsGetDay startOfYear + 1)

/-- The (week, year) pair produced by `formatDateAsKW` for a date. -/
def formatKWPair (d : Int) : Int × Nat := (formatKWWeek d, getFullYear d)

/-- Decimal digit character for a value below ten. -/
def decDigitChar (n : Nat) : Char :=
  match n with
  | 0 => '0' | 1 => '1' | 2 => '2' | 3 => '3' | 4 => '4'
  | 5 => '5' | 6 => '6' | 7 => '7' | 8 => '8' | _ => '9'

/-- Decimal digit list of a natural number (first argument is fuel). -/
def natDigitsAux : Nat → Nat → List Char
  | 0, _ => []
  | fuel + 1, n =>
    if n < 10 then [decDigitChar n] else natDigitsAux fuel (n / 10) ++ [decDigitChar (n % 10)]

/-- Decimal rendering of a natural number, as JavaScript number-to-string conversion. -/
def natToDecString (n : Nat) : String := String.mk (natDigitsAux (n + 1) n)

/-- Decimal rendering of an integer. -/
def intToDecString (i : Int) : String :=
  if i < 0 then "-" ++ natToDecString i.natAbs else natToDecString i.toNat

/-- The source function `formatDateAsKW`: renders a date as "W. KW YYYY" using the
simplified week-number formula. -/
def formatDateAsKW (d : Int) : String :=
  intToDecString (formatKWWeek d) ++ ". KW " ++ natToDecString (getFullYear d)

/-! ### Dynamic record values (JavaScript objects built by the CSV parsers) -/

/-- Value stored in a CSV record: the parsers produce strings, coerced integers,
a derived date, or `null` (a failed `parseKW`). -/
inductive CellVal where
  | str (s : String)
  | num (n : Int)
  | date (d : Int)
  | null
deriving DecidableEq

/-- Records are JavaScript objects, modelled as insertion-ordered association lists. -/
abbrev Row : Type := List (String × CellVal)

/-- Property write on a JavaScript object: overwriting keeps the original position,
a fresh key is appended. -/
def assocSet {β : Type} (l : List (String × β)) (k : String) (v : β) : List (String × β) :=
  if (l.find? (fun p => p.1 == k)).isSome then
    l.map (fun p => if p.1 == k then (k, v) else p)
  else l ++ [(k, v)]

/-- Property read on a JavaScript object (`undefined` is `none`). -/
def assocGet {β : Type} (l : List (String × β)) (k : String) : Option β :=
  (l.find? (fun p => p.1 == k)).map Prod.snd

/-- JavaScript truthiness of a possibly-absent record value. -/
def truthy : Option CellVal → Bool
  | none => false
  | some (.str s) => s != ""
  | some (.num n) => n != 0
  | some (.date _) => true
  | some .null => false

/-- JavaScript string coercion of a possibly-absent record value, as used by template
literals and `parseInt`. (The rendering of a `date` value is only reachable for
degenerate schemas that feed a derived date back into a string position.) -/
def jsToString : Option CellVal → String
  | none => "undefined"
  | some (.str s) => s
  | some (.num n) => intToDecString n
  | some (.date d) => "Date(" ++ intToDecString d ++ ")"
  | some .null => "null"

/-- The idiom `row.X || 0` on a numeric-or-blank field: a number is returned as is,
anything falsy (absent field, empty string, `null`, zero) gives 0. The parsers
only store numbers or blank strings in these fields. -/
def jsNumOr0 : Option CellVal → Int
  | some (.num n) => n
  | _ => 0

/-- Strict equality `cell === s` between a record value and a string. -/
def jsStrictEqStr (v : Option CellVal) (s : String) : Bool :=
  match v with
  | some (.str t) => t == s
  | _ => false

/-- The derived `date` field of a parsed record (theorems about the aggregation
functions assume well-formed records, where this field is a date). -/
def rowDate (row : Row) : Int :=
  match assocGet row "date" with
  | some (.date d) => d
  | _ => 0

/-! ### JavaScript parseInt -/

/-- Hexadecimal digit value of a character, if any. -/
def hexDigitVal (c : Char) : Option Nat :=
  if '0' ≤ c && c ≤ '9' then some (c.toNat - 48)
  else if 'a' ≤ c && c ≤ 'f' then some (c.toNat - 87)
  else if 'A' ≤ c && c ≤ 'F' then some (c.toNat - 55)
  else none

/-- Digit value of a character in radix 10 or 16. -/
def digitValInRadix (radix : Nat) (c : Char) : Option Nat :=
  match hexDigitVal c with
  | some v => if v < radix then some v else none
  | none => none

/-- Accumulates the value of a leading digit run, stopping at the first invalid
character, as `parseInt` does. -/
def goDigits (radix acc : Nat) : List Char → Nat
  | [] => acc
  | c :: cs =>
    match digitValInRadix radix c with
    | some v => goDigits radix (acc * radix + v) cs
    | none => acc

/-- Value of a digit run, or `none` (NaN) when no leading digit exists. -/
def jsParseDigits (radix : Nat) (cs : List Char) : Option Nat :=
  match cs with
  | c :: _ => if (digitValInRadix radix c).isSome then some (goDigits radix 0 cs) else none
  | [] => none

/-- JavaScript `parseInt(s)` (radix auto-detection: `0x`/`0X` switches to 16),
with `none` for NaN. -/
def jsParseInt (s : String) : Option Int :=
  let cs := s.data.dropWhile jsIsSpaceChar
  let sign : Int := match cs with | '-' :: _ => -1 | _ => 1
  let cs2 : List Char := match cs with
    | '-' :: rest => rest
    | '+' :: rest => rest
    | _ => cs
  match cs2 with
  | '0' :: 'x' :: rest => (jsParseDigits 16 rest).map (fun n => sign * n)
  | '0' :: 'X' :: rest => (jsParseDigits 16 rest).map (fun n => sign * n)
  | _ => (jsParseDigits 10 cs2).map (fun n => sign * n)

/-- The idiom `parseInt(s) || 0`: NaN (and 0 itself) becomes 0. -/
def jsParseIntOr0 (s : String) : Int :=
  match jsParseInt s with
  | some n => n
  | none => 0

/-- The sign handling of `parseInt`: a leading `-` or `+` is split off. -/
def jsSignSplit (cs : List Char) : Int × List Char :=
  match cs with
  | '-' :: rest => (-1, rest)
  | '+' :: rest => (1, rest)
  | _ => (1, cs)

/-- The optional `0x`/`0X` prefix accepted by `parseInt` with radix 16. -/
def jsStripHexMarker (cs : List Char) : List Char :=
  match cs with
  | '0' :: 'x' :: rest => rest
  | '0' :: 'X' :: rest => rest
  | _ => cs

/-- JavaScript `parseInt(s, 16)` (an optional `0x`/`0X` prefix is skipped),
with `none` for NaN. -/
def jsParseInt16 (s : String) : Option Int :=
  let sc := jsSignSplit (s.data.dropWhile jsIsSpaceChar)
  (jsParseDigits 16 (jsStripHexMarker sc.2)).map (fun n => sc.1 * n)

/-! ### CSV parsing (src/app.js lines 1731–1765 and 2067–2101) -/

/-- Splits a character list at every occurrence of `c`, as `String.prototype.split`. -/
def splitOnChar (c : Char) : List Char → List (List Char)
  | [] => [[]]
  | x :: xs =>
    match splitOnChar c xs with
    | r :: rs => if x == c then [] :: r :: rs else (x :: r) :: rs
    | [] => [[]]

/-- JavaScript `String.prototype.trim`. -/
def jsTrim (cs : List Char) : List Char :=
  ((cs.dropWhile jsIsSpaceChar).reverse.dropWhile jsIsSpaceChar).reverse

/-- The field post-processing `.trim().replace(/"/g, '')`. -/
def cleanField (cs : List Char) : String :=
  String.mk ((jsTrim cs).filter (fun c => c != '"'))

/-- Splits one CSV line at semicolons and cleans every field. -/
def parseFields (line : List Char) : List String :=
  (splitOnChar ';' line).map cleanField

/-- Builds the record for one line: `headers.forEach((h, i) => row[h] = values[i])`. -/
def buildRow (headers values : List String) : Row :=
  (headers.zip values).foldl (fun r p => assocSet r p.1 (CellVal.str p.2)) []

/-- The numeric-coercion pass: every truthy field in `cols` is replaced by
`parseInt(value) || 0`; falsy (in particular empty) fields are left untouched. -/
def coerceNumericCols (cols : List String) (row : Row) : Row :=
  cols.foldl
    (fun r col =>
      if truthy (assocGet r col) then
        assocSet r col (CellVal.num (jsParseIntOr0 (jsToString (assocGet r col))))
      else r)
    row

/-- The date-attachment pass: `if (row.KW) row.date = parseKW(row.KW)`. -/
def attachDate (row : Row) : Row :=
  if truthy (assocGet row "KW") then
    assocSet row "date"
      (match parseKW (jsToString (assocGet row "KW")) with
       | some d => CellVal.date d
       | none => CellVal.null)
  else row

/-- Numeric columns of the SARI CSV parser. -/
def sariNumericCols : List String :=
  ["COVID", "INFLUENZA", "RSV", "PNEUMOKOKKEN", "SONSTIGE", "AUFNAHMEN"]

/-- Numeric columns of the demographics CSV parser (additionally `BEV_ZAHL`). -/
def demographicsNumericCols : List String :=
  ["COVID", "INFLUENZA", "RSV", "PNEUMOKOKKEN", "SONSTIGE", "AUFNAHMEN", "BEV_ZAHL"]

/-- Processing of one data line by the CSV parsers: the line is dropped when its
field count differs from the header's, otherwise the record is built, numeric
columns are coerced, the date is attached, and the record is dropped when its
`date` field is not truthy. -/
def parseCSVLine (numericCols headers : List String) (line : List Char) : Option Row :=
  let values := parseFields line
  if values.length != headers.length then none
  else
    let row := attachDate (coerceNumericCols numericCols (buildRow headers values))
    if truthy (assocGet row "date") then some row else none

/-- Shared body of `parseCSV` and `parseDemographicsCSV` (the two source functions
are identical except for the numeric column list). -/
def parseCSVWith (numericCols : List String) (csvText : String) : List Row :=
  let lines := splitOnChar '\n' (jsTrim csvText.data)
  if lines.length < 2 then []
  else
    match lines with
    | [] => []
    | l0 :: rest => rest.filterMap (parseCSVLine numericCols (parseFields l0))

/-- The source function `parseCSV` (SARI admissions CSV). -/
def parseCSV (csvText : String) : List Row := parseCSVWith sariNumericCols csvText

/-- The source function `parseDemographicsCSV`. -/
def parseDemographicsCSV (csvText : String) : List Row :=
  parseCSVWith demographicsNumericCols csvText

/-- The line list a CSV text is split into. -/
def linesOf (csvText : String) : List (List Char) := splitOnChar '\n' (jsTrim csvText.data)

/-- The header fields of a CSV text. -/
def headersOf (csvText : String) : List String :=
  match linesOf csvText with
  | l0 :: _ => parseFields l0
  | [] => []

/-- The week label a data line carries: the (string) value its record holds under
the `KW` header. -/
def lineKW (headers : List String) (line : List Char) : Option String :=
  match assocGet (buildRow headers (parseFields line)) "KW" with
  | some (.str s) => some s
  | _ => none

/-- What a numeric-subset field of a surviving record may hold: an integer, the
empty string (an empty CSV field, skipped by the truthiness guard of the
coercion pass), or nothing (its column is absent). -/
def numericishCell (v : Option CellVal) : Prop :=
  (∃ n, v = some (CellVal.num n)) ∨ v = some (CellVal.str "") ∨ v = none

/-! ### filterSariData (src/app.js lines 1768–1804) -/

/-- Per-date diagnosis totals of one aggregation bucket. -/
structure DiagTotals where
  covid : Int
  influenza : Int
  rsv : Int
  pneumokokken : Int
  sonstige : Int
deriving DecidableEq

/-- The all-zero bucket created when a date key is first seen. -/
def zeroTotals : DiagTotals :=
  { covid := 0, influenza := 0, rsv := 0, pneumokokken := 0, sonstige := 0 }

/-- Adds one record's diagnosis counts (each `row.X || 0`) to a bucket. -/
def addDiag (t : DiagTotals) (row : Row) : DiagTotals :=
  { covid := t.covid + jsNumOr0 (assocGet row "COVID")
    influenza := t.influenza + jsNumOr0 (assocGet row "INFLUENZA")
    rsv := t.rsv + jsNumOr0 (assocGet row "RSV")
    pneumokokken := t.pneumokokken + jsNumOr0 (assocGet row "PNEUMOKOKKEN")
    sonstige := t.sonstige + jsNumOr0 (assocGet row "SONSTIGE") }

/-- One step of the grouping loop of `filterSariData`: the record is added to the
bucket of its date key, which is created as the zero bucket when missing. -/
def addRowToGroup (g : List (Int × DiagTotals)) (row : Row) : List (Int × DiagTotals) :=
  let key := rowDate row
  if (g.find? (fun p => p.1 == key)).isSome then
    g.map (fun p => if p.1 == key then (p.1, addDiag p.2 row) else p)
  else g ++ [(key, addDiag zeroTotals row)]

/-- The region and station filter passes shared by the SARI aggregations
("AT" and "ALL" are the no-filter sentinels); `field` is the region column name. -/
def applyRegionStationFilter (field : String) (rows : List Row)
    (bundesland station : String) : List Row :=
  let f1 := if bundesland != "AT" then
      rows.filter (fun r => jsStrictEqStr (assocGet r field) bundesland)
    else rows
  if station != "ALL" then
    f1.filter (fun r => jsStrictEqStr (assocGet r "STATION") station)
  else f1

/-- The source function `filterSariData`: filters by region (`BUNDESLAND`) and
station, groups by date, sums the five diagnosis counts per date, and sorts the
buckets by date. -/
def filterSariData (rows : List Row) (bundesland station : String) :
    List (Int × DiagTotals) :=
  let filtered := applyRegionStationFilter "BUNDESLAND" rows bundesland station
  let grouped := filtered.foldl addRowToGroup []
  grouped.insertionSort (fun a b => a.1 ≤ b.1)

/-- Componentwise sum of two diagnosis-total buckets. -/
def addTotals (a b : DiagTotals) : DiagTotals :=
  { covid := a.covid + b.covid, influenza := a.influenza + b.influenza,
    rsv := a.rsv + b.rsv, pneumokokken := a.pneumokokken + b.pneumokokken,
    sonstige := a.sonstige + b.sonstige }

/-- The totals the bucket list of `filterSariData` holds for a given date
(the zero bucket when the date is absent). -/
def groupTotals (out : List (Int × DiagTotals)) (d : Int) : DiagTotals :=
  match out.find? (fun p => p.1 == d) with
  | some p => p.2
  | none => zeroTotals

/-- Reference totals: the diagnosis sums of all records of a list carrying a
given date. -/
def totalsOnDate (rows : List Row) (d : Int) : DiagTotals :=
  (rows.filter (fun r => rowDate r == d)).foldl addDiag zeroTotals

/-! ### aggregateDemographicsData (src/app.js lines 2104–2172) -/

/-- Population tracking entry of `populationByAgeGender`. -/
structure PopEntry where
  ageGroup : String
  gender : String
  pop : Int
deriving DecidableEq

/-- Accumulator entry of the `aggregated` object before the population is attached. -/
structure DemoAcc where
  ageGroup : String
  gender : String
  diagnose : String
  count : Int
deriving DecidableEq

/-- The final demographics bucket, with the average population attached. -/
structure DemoItem where
  ageGroup : String
  gender : String
  diagnose : String
  count : Int
  population : ℚ
deriving DecidableEq

/-- The five diagnosis keys iterated by the demographics aggregation. -/
def diagnosen : List String := ["COVID", "INFLUENZA", "RSV", "PNEUMOKOKKEN", "SONSTIGE"]

/-- One loop step of `aggregateDemographicsData`: records the row's population once
per (age group, gender, week) key, and adds each diagnosis count to its
(age group, gender, diagnosis) bucket. -/
def demoStep (acc : List (String × PopEntry) × List (String × DemoAcc)) (row : Row) :
    List (String × PopEntry) × List (String × DemoAcc) :=
  let ag := jsToString (assocGet row "ALTERSGRUPPE")
  let g := jsToString (assocGet row "GESCHLECHT")
  let popKey := ag ++ "_" ++ g ++ "_" ++ jsToString (assocGet row "KW")
  let popMap :=
    if (acc.1.find? (fun p => p.1 == popKey)).isSome = false
        && truthy (assocGet row "BEV_ZAHL") then
      acc.1 ++ [(popKey, { ageGroup := ag, gender := g,
                           pop := jsNumOr0 (assocGet row "BEV_ZAHL") })]
    else acc.1
  let aggMap := diagnosen.foldl
    (fun m diagnose =>
      let key := ag ++ "_" ++ g ++ "_" ++ diagnose
      let entry := match assocGet m key with
        | some e => e
        | none => { ageGroup := ag, gender := g, diagnose := diagnose, count := 0 }
      assocSet m key { entry with count := entry.count + jsNumOr0 (assocGet row diagnose) })
    acc.2
  (popMap, aggMap)

/-- The population averaging pass: sums and sample counts per (age group, gender). -/
def popSumsCounts (popMap : List (String × PopEntry)) : List (String × (Int × Nat)) :=
  popMap.foldl
    (fun s p =>
      let key := p.2.ageGroup ++ "_" ++ p.2.gender
      let cur := match assocGet s key with
        | some v => v
        | none => (0, 0)
      assocSet s key (cur.1 + p.2.pop, cur.2 + 1))
    []

/-- The date-range filter pass (`if (startDate && endDate)`). -/
def applyDateRangeFilter (rows : List Row) (startDate endDate : Option Int) : List Row :=
  match startDate, endDate with
  | some sd, some ed => rows.filter (fun r => sd ≤ rowDate r && rowDate r ≤ ed)
  | _, _ => rows

/-- The source function `aggregateDemographicsData`: filters by region (`WOHNORT`),
station and date range, aggregates counts by (age group, gender, diagnosis), and
attaches the average population of the bucket's (age group, gender) pair
(0 when no population sample was recorded). -/
def aggregateDemographicsData (data : List Row) (bundesland station : String)
    (startDate endDate : Option Int) : List DemoItem :=
  let filtered := applyDateRangeFilter
    (applyRegionStationFilter "WOHNORT" data bundesland station) startDate endDate
  let maps := filtered.foldl demoStep ([], [])
  let sums := popSumsCounts maps.1
  maps.2.map (fun p =>
    let popKey := p.2.ageGroup ++ "_" ++ p.2.gender
    { ageGroup := p.2.ageGroup, gender := p.2.gender, diagnose := p.2.diagnose,
      count := p.2.count,
      population :=
        match assocGet sums popKey with
        | some v => if v.2 ≠ 0 then (v.1 : ℚ) / (v.2 : ℚ) else 0
        | none => 0 })

/-- A demographics bucket after the per-100k pass (counts may become fractional). -/
structure DemoItemQ where
  ageGroup : String
  gender : String
  diagnose : String
  count : ℚ
  population : ℚ
deriving DecidableEq

/-- The per-100k block of `createSariDemographicsChart` (src/app.js lines 2183–2190):
buckets with positive population are rescaled to `(count / population) * 100000`;
all other buckets keep their raw count. -/
def per100kDemographics (items : List DemoItem) : List DemoItemQ :=
  items.map (fun it =>
    { ageGroup := it.ageGroup, gender := it.gender, diagnose := it.diagnose,
      count :=
        if (0 : ℚ) < it.population then ((it.count : ℚ) / it.population) * 100000
        else (it.count : ℚ),
      population := it.population })

/-! ### aggregateHeatmapData and the heatmap cell values
(src/app.js lines 2353–2394 and 2438–2447) -/

/-- One heatmap bucket: week label × age group, with the population running sum
and sample count. -/
structure HeatBucket where
  kw : String
  ageGroup : String
  count : Int
  pop : Int
  popCount : Nat
deriving DecidableEq

/-- One loop step of `aggregateHeatmapData`: adds the selected diagnosis count
(or the sum of all five for "ALL") to the (week, age group) bucket, and adds the
row's population figure whenever `BEV_ZAHL` is truthy — once per row, without any
deduplication. -/
def heatStep (diagnose : String) (m : List (String × HeatBucket)) (row : Row) :
    List (String × HeatBucket) :=
  let kw := jsToString (assocGet row "KW")
  let ag := jsToString (assocGet row "ALTERSGRUPPE")
  let key := kw ++ "_" ++ ag
  let entry := match assocGet m key with
    | some e => e
    | none => { kw := kw, ageGroup := ag, count := 0, pop := 0, popCount := 0 }
  let dCount :=
    if diagnose == "ALL" then
      jsNumOr0 (assocGet row "COVID") + jsNumOr0 (assocGet row "INFLUENZA")
        + jsNumOr0 (assocGet row "RSV") + jsNumOr0 (assocGet row "PNEUMOKOKKEN")
        + jsNumOr0 (assocGet row "SONSTIGE")
    else jsNumOr0 (assocGet row diagnose)
  let entry := { entry with count := entry.count + dCount }
  let entry :=
    if truthy (assocGet row "BEV_ZAHL") then
      { entry with pop := entry.pop + jsNumOr0 (assocGet row "BEV_ZAHL"),
                   popCount := entry.popCount + 1 }
    else entry
  assocSet m key entry

/-- The source function `aggregateHeatmapData`: filters by region (`WOHNORT`) and
station, then aggregates per (week, age group). -/
def aggregateHeatmapData (data : List Row) (bundesland station diagnose : String) :
    List HeatBucket :=
  let filtered := applyRegionStationFilter "WOHNORT" data bundesland station
  (filtered.foldl (heatStep diagnose) []).map Prod.snd

/-- The cell-value computation of `createSariHeatmap` (src/app.js lines 2438–2447):
the bucket for the (week, age group) cell is looked up; with the per-100k toggle
on and at least one population sample, the count is divided by the average
population (the guard `avgPop > 0` maps the degenerate nonpositive average to 0);
otherwise the raw count is used; a missing bucket gives 0. -/
def heatCellValue (aggregated : List HeatBucket) (kw ag : String) (per100k : Bool) : ℚ :=
  match aggregated.find? (fun d => d.kw == kw && d.ageGroup == ag) with
  | none => 0
  | some item =>
    if per100k then
      if 0 < item.popCount then
        let avgPop : ℚ := (item.pop : ℚ) / (item.popCount : ℚ)
        if 0 < avgPop then ((item.count : ℚ) / avgPop) * 100000 else 0
      else (item.count : ℚ)
    else (item.count : ℚ)

/-! ### Trace extraction (src/app.js lines 26–47 and 1362–1389) -/

/-- One Plotly trace of the fetched payload; absent fields are `none`.
The axis arrays are copied opaquely, so their element type is irrelevant. -/
structure PlotTrace where
  name : Option String
  x : Option (List String)
  y : Option (List String)
  type : Option String
  mode : Option String
deriving DecidableEq

/-- The fetched payload; only its `data` field is read. -/
structure Payload where
  data : Option (List PlotTrace)
deriving DecidableEq

/-- An extracted (x, y) series. -/
abbrev Series : Type := List String × List String

/-- Substring test, as `String.prototype.includes`. -/
def containsSub (pat : List Char) : List Char → Bool
  | [] => pat.isEmpty
  | c :: cs => pat.isPrefixOf (c :: cs) || containsSub pat cs

/-- JavaScript `s.includes(pat)`. -/
def jsIncludes (s pat : String) : Bool := containsSub pat.data s.data

/-- The trace list of a payload (empty when the payload or its `data` is absent). -/
def payloadTraces : Option Payload → List PlotTrace
  | some p => match p.data with
    | some ts => ts
    | none => []
  | none => []

/-- One loop step of the first `extractAllTraces` variant: a trace with a truthy
name and both axis arrays is stored under its name when its name does not
contain "Quartil", it is not of bar type and its mode is not 'none'. -/
def extractStep (acc : List (String × Series)) (trace : PlotTrace) :
    List (String × Series) :=
  match trace.name, trace.x, trace.y with
  | some n, some xs, some ys =>
    if n != "" && !(jsIncludes n "Quartil") && trace.type != some "bar"
        && trace.mode != some "none" then
      assocSet acc n (xs, ys)
    else acc
  | _, _, _ => acc

/-- The first (non-quartile-aware) source variant of `extractAllTraces`
(src/app.js lines 26–47). -/
def extractAllTraces (plotlyData : Option Payload) : List (String × Series) :=
  match plotlyData with
  | none => []
  | some payload =>
    match payload.data with
    | none => []
    | some traces => traces.foldl extractStep []

/-- Result of the quartile-aware variant of `extractAllTraces`. -/
structure TracesQ where
  traces : List (String × Series)
  quartile1 : Option Series
  quartile3 : Option Series
deriving DecidableEq

/-- One loop step of the quartile-aware `extractAllTraces` variant: traces without
a truthy name or an axis array are skipped; the two series named exactly
"1. Quartil Österreich" and "3. Quartil Österreich" are diverted to the quartile
slots; every other trace that is not of bar type and whose mode is not 'none'
goes into the mapping. -/
def extractStepQuartile (acc : TracesQ) (trace : PlotTrace) : TracesQ :=
  match trace.name, trace.x, trace.y with
  | some n, some xs, some ys =>
    if n == "" then acc
    else if n == "1. Quartil Österreich" then
      { acc with quartile1 := some (xs, ys) }
    else if n == "3. Quartil Österreich" then
      { acc with quartile3 := some (xs, ys) }
    else if trace.type != some "bar" && trace.mode != some "none" then
      { acc with traces := assocSet acc.traces n (xs, ys) }
    else acc
  | _, _, _ => acc

/-- The second (quartile-aware) source variant of `extractAllTraces`
(src/app.js lines 1362–1389). -/
def extractAllTracesQuartile (plotlyData : Option Payload) : TracesQ :=
  match plotlyData with
  | none => { traces := [], quartile1 := none, quartile3 := none }
  | some payload =>
    match payload.data with
    | none => { traces := [], quartile1 := none, quartile3 := none }
    | some traces =>
      traces.foldl extractStepQuartile
        ({ traces := [], quartile1 := none, quartile3 := none } : TracesQ)

/-- Membership condition of the first `extractAllTraces` variant, written out as a
predicate: the claim's description of which traces are kept. -/
def keptByExtract (n : String) (t : PlotTrace) : Prop :=
  t.name = some n ∧ n ≠ "" ∧ t.x.isSome = true ∧ t.y.isSome = true
    ∧ jsIncludes n "Quartil" = false ∧ t.type ≠ some "bar" ∧ t.mode ≠ some "none"

/-- Membership condition of the quartile-aware `extractAllTraces` variant: only the
two exact quartile names are diverted away from the mapping. -/
def keptByExtractQuartile (n : String) (t : PlotTrace) : Prop :=
  t.name = some n ∧ n ≠ "" ∧ t.x.isSome = true ∧ t.y.isSome = true
    ∧ n ≠ "1. Quartil Österreich" ∧ n ≠ "3. Quartil Österreich"
    ∧ t.type ≠ some "bar" ∧ t.mode ≠ some "none"

/-- The test payload of the spec's trace-extraction scenario: one bar-type trace,
one invisible trace (`mode: 'none'`), and two valid line traces. -/
def examplePayload : Option Payload :=
  some
    { data := some
        [ { name := some "Balkenwert", x := some ["1"], y := some ["2"],
            type := some "bar", mode := none },
          { name := some "Unsichtbar", x := some ["1"], y := some ["2"],
            type := none, mode := some "none" },
          { name := some "Ort A", x := some ["1", "2"], y := some ["3", "4"],
            type := none, mode := some "lines" },
          { name := some "Ort B", x := some ["1", "2"], y := some ["5", "6"],
            type := none, mode := some "lines" } ] }

/-! ### lightenColor (src/app.js lines 278–284) -/

/-- Replaces the first occurrence of `c`, as `String.prototype.replace` with a
string pattern. -/
def stripFirstChar (c : Char) : List Char → List Char
  | [] => []
  | x :: xs => if x == c then xs else x :: stripFirstChar c xs

/-- Lowercase hexadecimal digit character, as `Number.prototype.toString(16)`. -/
def hexDigitChar (n : Nat) : Char :=
  match n with
  | 0 => '0' | 1 => '1' | 2 => '2' | 3 => '3' | 4 => '4' | 5 => '5' | 6 => '6'
  | 7 => '7' | 8 => '8' | 9 => '9' | 10 => 'a' | 11 => 'b' | 12 => 'c' | 13 => 'd'
  | 14 => 'e' | _ => 'f'

/-- Hexadecimal digit list of a natural number (first argument is fuel). -/
def natHexDigitsAux : Nat → Nat → List Char
  | 0, _ => []
  | fuel + 1, n =>
    if n < 16 then [hexDigitChar n]
    else natHexDigitsAux fuel (n / 16) ++ [hexDigitChar (n % 16)]

/-- Hexadecimal rendering of a natural number, as `toString(16)`. -/
def natHexDigits (n : Nat) : List Char := natHexDigitsAux (n + 1) n

/-- JavaScript `String.prototype.padStart`. -/
def padStartChars (len : Nat) (c : Char) (cs : List Char) : List Char :=
  List.replicate (len - cs.length) c ++ cs

/-- One colour channel of `lightenColor`:
`Math.min(255, Math.floor(c + (255 - c) * amount))`. -/
def lightenChannel (c : Int) (amount : ℚ) : Int :=
  min 255 ⌊(c : ℚ) + ((255 : ℚ) - (c : ℚ)) * amount⌋

/-- The source function `lightenColor`: parses the hex colour (`none` models the
NaN garbage produced for an unparsable argument), interpolates each channel
toward 255, and re-renders `#` plus six zero-padded lowercase hex digits.
The bit operations `>> 16`, `(>> 8) & 0xFF`, `& 0xFF` and `r << 16 | g << 8 | b`
coincide with the divisions and the weighted sum below on the in-range values
the function produces. -/
def lightenColor (hex : String) (amount : ℚ) : Option String :=
  match jsParseInt16 (String.mk (stripFirstChar '#' hex.data)) with
  | none => none
  | some num =>
    let r := lightenChannel (num / 65536) amount
    let g := lightenChannel (num / 256 % 256) amount
    let b := lightenChannel (num % 256) amount
    some (String.mk
      ('#' :: padStartChars 6 '0'
        (natHexDigits (r.toNat * 65536 + g.toNat * 256 + b.toNat))))

/-- The canonical colour rendering of the source: `#` followed by the six
zero-padded lowercase hex digits of `r·65536 + g·256 + b` — exactly the output
pipeline of `lightenColor`. -/
def hexColor6 (r g b : Nat) : String :=
  String.mk ('#' :: padStartChars 6 '0' (natHexDigits (r * 65536 + g * 256 + b)))

/-! ## Theorems -/

/-- Bridge between the integer implementation of `Math.ceil(a / 7)` and the
mathematical ceiling. -/
theorem ceilDiv7_eq_ceil (a : Int) : ceilDiv7 a = ⌈((a : ℚ) / 7)⌉ := by
  have h : ⌊((↑(-a) : ℚ)) / ((7:ℕ) : ℚ)⌋ = (-a) / ((7:ℕ) : ℤ) :=
    Rat.floor_intCast_div_natCast (-a) 7
  have h2 : ((↑(-a) : ℚ)) / ((7:ℕ) : ℚ) = -((a : ℚ) / 7) := by push_cast; ring
  rw [h2, Int.floor_neg] at h
  have h3 : ((7:ℕ) : ℤ) = 7 := by norm_num
  rw [h3] at h
  unfold ceilDiv7
  omega

/-- January day numbers: month 1 contributes no month offset. -/
theorem rataDie_jan (y d : Nat) : rataDie y 1 d = ((daysBeforeYear y + d : Nat) : Int) := by
  simp [rataDie, daysBeforeMonth]

/-- C5: `parseKW "19. KW 2023"` is 2023-05-08, a Monday, and `parseKW "1. KW 2023"`
is 2023-01-02; in general the computed Monday is January 4th of the (JS-adjusted)
year, stepped back by (weekday of January 4th − 1) days with Sunday counted as 7,
plus (week − 1) · 7 days. -/
theorem C5_parseKW_values_and_algorithm :
    parseKW "19. KW 2023" = some (rataDie 2023 5 8)
    ∧ jsGetDay (rataDie 2023 5 8) = 1
    ∧ parseKW "1. KW 2023" = some (rataDie 2023 1 2)
    ∧ (∀ week year : Nat,
        parseKWFromWeekYear week year =
          (let jan4 : Int := rataDie (jsYearAdjust year) 1 4
           let wd : Int := if jsGetDay jan4 == 0 then 7 else jsGetDay jan4
           jan4 - (wd - 1) + ((week : Int) - 1) * 7)) := by
  refine ⟨by decide, by decide, by decide, ?_⟩
  intro week year
  unfold parseKWFromWeekYear
  ring

/-- C2 counterexample: (week 10, year 2021) is inside the claim's quantification
domain (it is not week 1, and 1 Jan 2021 is a Friday, weekday 5), yet the
round trip through `parseKW` and the `formatDateAsKW` week computation returns
week 11, not week 10. -/
theorem C2_roundtrip_counterexample :
    parseKW "10. KW 2021" = some (rataDie 2021 3 8)
    ∧ jsGetDay (rataDie 2021 1 1) = 5
    ∧ formatKWPair (rataDie 2021 3 8) = (11, 2021)
    ∧ ((11 : Int), (2021 : Nat)) ≠ ((10 : Int), (2021 : Nat)) := by
  refine ⟨by decide, by decide, by decide, by decide⟩

/-- C2 (amended): for a label recognised as (week, year) with 1 ≤ week ≤ 53 and a
four-digit-style year (≥ 100), if 1 January of that year falls on Sunday through
Thursday (`getDay ≤ 4`, i.e. the year does not start on Friday or Saturday) and
the Monday computed by `parseKW` still lies inside that year, then the
`formatDateAsKW` week computation recovers exactly (week, year). Years starting
on Friday or Saturday are off by one for every week, and in week 1 of years
starting on Tuesday–Thursday the Monday lies in the previous year. -/
theorem C2_parseKW_formatDateAsKW_roundtrip (s : String) (week year : Nat) (d : Int)
    (hmatch : findKWMatch s.data = some (week, year))
    (hd : parseKW s = some d)
    (hw : 1 ≤ week) (hw53 : week ≤ 53) (hy : 100 ≤ year)
    (hjan1 : jsGetDay (rataDie year 1 1) ≤ 4)
    (hyear : getFullYear d = year) :
    formatKWPair d = ((week : Int), year) := by
  have hd2 : d = parseKWFromWeekYear week year := by
    rw [parseKW, hmatch] at hd
    simpa using hd.symm
  have hadj : jsYearAdjust year = year := by
    unfold jsYearAdjust
    rw [if_neg]
    omega
  have hjan4 : rataDie year 1 4 = rataDie year 1 1 + 3 := by
    rw [rataDie_jan, rataDie_jan]
    push_cast
    ring
  have e1 : parseKWFromWeekYear week year
      = rataDie year 1 1 + 3
        - (if (rataDie year 1 1 + 3) % 7 == 0 then 7 else (rataDie year 1 1 + 3) % 7)
        + 1 + 7 * ((week : Int) - 1) := by
    simp only [parseKWFromWeekYear, jsGetDay, hadj, hjan4]
  unfold formatKWPair
  rw [Prod.mk.injEq]
  refine ⟨?_, hyear⟩
  unfold formatKWWeek jsGetDay
  rw [hyear, hd2, e1]
  unfold ceilDiv7
  unfold jsGetDay at hjan1
  have hj0 : 0 ≤ rataDie year 1 1 % 7 := Int.emod_nonneg _ (by norm_num)
  simp only [beq_iff_eq]
  split
  all_goals omega

/-- C2 witness: the hypotheses of the round-trip theorem are satisfiable, e.g. at
the label "19. KW 2023" (2023 starts on a Sunday). -/
theorem C2_parseKW_formatDateAsKW_roundtrip_witness :
    formatKWPair (rataDie 2023 5 8) = ((19 : Int), 2023) :=
  C2_parseKW_formatDateAsKW_roundtrip "19. KW 2023" 19 2023 (rataDie 2023 5 8)
    (by decide) (by decide) (by decide) (by decide) (by decide) (by decide) (by decide)

/-- C10: both variants of `extractAllTraces` return an empty trace mapping (and, in
the quartile-aware variant, absent quartile series) for a null payload and for a
payload without a `data` field, instead of failing. -/
theorem C10_extractAllTraces_null_tolerant :
    extractAllTraces none = []
    ∧ extractAllTraces (some { data := none }) = []
    ∧ extractAllTracesQuartile none =
        { traces := [], quartile1 := none, quartile3 := none }
    ∧ extractAllTracesQuartile (some { data := none }) =
        { traces := [], quartile1 := none, quartile3 := none } := by
  refine ⟨by decide, by decide, by decide, by decide⟩

/-- Writing a key into an ordered association object leaves the key set unchanged
when the key is present, and appends it otherwise. -/
theorem mem_keys_assocSet {β : Type} (l : List (String × β)) (k : String) (v : β)
    (n : String) :
    n ∈ (assocSet l k v).map Prod.fst ↔ n ∈ l.map Prod.fst ∨ n = k := by
  unfold assocSet
  split
  next h =>
    have hk : k ∈ l.map Prod.fst := by
      rw [List.find?_isSome] at h
      obtain ⟨p, hp, hpk⟩ := h
      have : p.1 = k := by simpa using hpk
      exact this ▸ List.mem_map_of_mem Prod.fst hp
    have hkeys : (l.map (fun p => if p.1 == k then (k, v) else p)).map Prod.fst
        = l.map Prod.fst := by
      rw [List.map_map]
      apply List.map_congr_left
      intro p _
      by_cases hpk : p.1 == k
      · simp only [Function.comp_apply, if_pos hpk]
        exact (beq_iff_eq.mp hpk).symm
      · simp only [Function.comp_apply]
        rw [if_neg hpk]
    rw [hkeys]
    constructor
    · exact Or.inl
    · rintro (h1 | rfl)
      · exact h1
      · exact hk
  next h =>
    simp [List.mem_append]

/-- Key-set effect of one step of the first trace-extraction loop. -/
theorem extractStep_keys (acc : List (String × Series)) (t : PlotTrace) (n : String) :
    n ∈ (extractStep acc t).map Prod.fst ↔ n ∈ acc.map Prod.fst ∨ keptByExtract n t := by
  unfold extractStep keptByExtract
  cases ht : t.name with
  | none => simp [ht]
  | some nm =>
    cases hx : t.x with
    | none => simp [ht, hx]
    | some xs =>
      cases hy : t.y with
      | none => simp [ht, hx, hy]
      | some ys =>
        simp only [ht, hx, hy, Option.isSome_some]
        split
        next hc =>
          rw [mem_keys_assocSet]
          simp only [Bool.and_eq_true, bne_iff_ne, Bool.not_eq_true] at hc
          obtain ⟨⟨⟨h1, h2⟩, h3⟩, h4⟩ := hc
          constructor
          · rintro (h | rfl)
            · exact Or.inl h
            · exact Or.inr ⟨rfl, h1, trivial, trivial, by simpa using h2, h3, h4⟩
          · rintro (h | ⟨hname, _, _, _, _, _, _⟩)
            · exact Or.inl h
            · exact Or.inr (by injection hname with e; exact e.symm)
        next hc =>
          constructor
          · exact Or.inl
          · rintro (h | ⟨hname, hne, _, _, hq, htb, hmb⟩)
            · exact h
            · exfalso
              apply hc
              injection hname with e
              subst e
              simp [hne, hq, htb, hmb]

/-- Key-set effect of the whole first trace-extraction loop. -/
theorem extract_foldl_keys (ts : List PlotTrace) (acc : List (String × Series))
    (n : String) :
    n ∈ (ts.foldl extractStep acc).map Prod.fst ↔
      n ∈ acc.map Prod.fst ∨ ∃ t ∈ ts, keptByExtract n t := by
  induction ts generalizing acc with
  | nil => simp
  | cons t ts ih =>
    rw [List.foldl_cons, ih, extractStep_keys]
    simp only [List.mem_cons]
    constructor
    · rintro ((h | h) | ⟨t', ht', h⟩)
      · exact Or.inl h
      · exact Or.inr ⟨t, Or.inl rfl, h⟩
      · exact Or.inr ⟨t', Or.inr ht', h⟩
    · rintro (h | ⟨t', ht' | ht', h⟩)
      · exact Or.inl (Or.inl h)
      · exact Or.inl (Or.inr (ht' ▸ h))
      · exact Or.inr ⟨t', ht', h⟩

/-- Key-set effect of one step of the quartile-aware trace-extraction loop. -/
theorem extractStepQuartile_keys (acc : TracesQ) (t : PlotTrace) (n : String) :
    n ∈ (extractStepQuartile acc t).traces.map Prod.fst ↔
      n ∈ acc.traces.map Prod.fst ∨ keptByExtractQuartile n t := by
  unfold extractStepQuartile keptByExtractQuartile
  cases ht : t.name with
  | none => simp [ht]
  | some nm =>
    cases hx : t.x with
    | none => simp [ht, hx]
    | some xs =>
      cases hy : t.y with
      | none => simp [ht, hx, hy]
      | some ys =>
        simp only [ht, hx, hy, Option.isSome_some]
        by_cases h0 : nm == ""
        · rw [if_pos h0]
          have h0' : nm = "" := beq_iff_eq.mp h0
          constructor
          · exact Or.inl
          · rintro (h | ⟨hname, hne, _⟩)
            · exact h
            · exact absurd (by injection hname with e; rw [← e]; exact h0') hne
        · rw [if_neg h0]
          by_cases h1 : nm == "1. Quartil Österreich"
          · rw [if_pos h1]
            have h1' : nm = "1. Quartil Österreich" := beq_iff_eq.mp h1
            constructor
            · exact Or.inl
            · rintro (h | ⟨hname, _, _, _, hq1, _⟩)
              · exact h
              · exact absurd (by injection hname with e; rw [← e]; exact h1') hq1
          · rw [if_neg h1]
            by_cases h3 : nm == "3. Quartil Österreich"
            · rw [if_pos h3]
              have h3' : nm = "3. Quartil Österreich" := beq_iff_eq.mp h3
              constructor
              · exact Or.inl
              · rintro (h | ⟨hname, _, _, _, _, hq3, _⟩)
                · exact h
                · exact absurd (by injection hname with e; rw [← e]; exact h3') hq3
            · rw [if_neg h3]
              split
              next hc =>
                dsimp only
                rw [mem_keys_assocSet]
                simp only [Bool.and_eq_true, bne_iff_ne] at hc
                constructor
                · rintro (h | rfl)
                  · exact Or.inl h
                  · refine Or.inr ⟨rfl, by simpa using h0, trivial, trivial, ?_, ?_, hc.1, hc.2⟩
                    · exact fun e => h1 (by simp [e])
                    · exact fun e => h3 (by simp [e])
                · rintro (h | ⟨hname, _, _, _, _, _, _, _⟩)
                  · exact Or.inl h
                  · exact Or.inr (by injection hname with e; exact e.symm)
              next hc =>
                constructor
                · exact Or.inl
                · rintro (h | ⟨hname, _, _, _, _, _, htb, hmb⟩)
                  · exact h
                  · exfalso
                    apply hc
                    simp [htb, hmb]

/-- Key-set effect of the whole quartile-aware trace-extraction loop. -/
theorem extractQuartile_foldl_keys (ts : List PlotTrace) (acc : TracesQ) (n : String) :
    n ∈ (ts.foldl extractStepQuartile acc).traces.map Prod.fst ↔
      n ∈ acc.traces.map Prod.fst ∨ ∃ t ∈ ts, keptByExtractQuartile n t := by
  induction ts generalizing acc with
  | nil => simp
  | cons t ts ih =>
    rw [List.foldl_cons, ih, extractStepQuartile_keys]
    simp only [List.mem_cons]
    constructor
    · rintro ((h | h) | ⟨t', ht', h⟩)
      · exact Or.inl h
      · exact Or.inr ⟨t, Or.inl rfl, h⟩
      · exact Or.inr ⟨t', Or.inr ht', h⟩
    · rintro (h | ⟨t', ht' | ht', h⟩)
      · exact Or.inl (Or.inl h)
      · exact Or.inl (Or.inr (ht' ▸ h))
      · exact Or.inr ⟨t', ht', h⟩

/-- C8 counterexample: a trace whose name contains "Quartil" but is not one of the
two exact quartile series ("2. Quartil Wien") is NOT excluded by the quartile-aware
`extractAllTraces`: it ends up in the returned trace mapping. -/
theorem C8_quartile_name_in_mapping :
    jsIncludes "2. Quartil Wien" "Quartil" = true
    ∧ (extractAllTracesQuartile (some
        { data := some [
            { name := some "2. Quartil Wien", x := some ["1"], y := some ["2"],
              type := none, mode := none } ] })).traces.map Prod.fst
      = ["2. Quartil Wien"] := by
  refine ⟨by decide, by decide⟩

/-- C8 (amended): the first variant of `extractAllTraces` keeps exactly the traces
with a truthy name and both axis arrays whose name does not contain "Quartil",
that are not of bar type and whose mode is not 'none'; the quartile-aware variant
only diverts the two exact quartile names, keeping every other named trace (even
quartile-band-named ones) under the same remaining conditions; the spec's
concrete scenario (one bar trace, one 'none'-mode trace, two valid line traces)
yields exactly the two line series under their original names in both variants. -/
theorem C8_extractAllTraces_membership :
    (∀ (p : Option Payload) (n : String),
        n ∈ (extractAllTraces p).map Prod.fst ↔ ∃ t ∈ payloadTraces p, keptByExtract n t)
    ∧ (∀ (p : Option Payload) (n : String),
        n ∈ (extractAllTracesQuartile p).traces.map Prod.fst ↔
          ∃ t ∈ payloadTraces p, keptByExtractQuartile n t)
    ∧ (extractAllTraces examplePayload).map Prod.fst = ["Ort A", "Ort B"]
    ∧ (extractAllTracesQuartile examplePayload).traces.map Prod.fst = ["Ort A", "Ort B"] := by
  refine ⟨?_, ?_, by decide, by decide⟩
  · intro p n
    rcases p with _ | ⟨d⟩
    · simp [extractAllTraces, payloadTraces]
    · rcases d with _ | ts
      · simp [extractAllTraces, payloadTraces]
      · rw [show payloadTraces (some { data := some ts }) = ts from rfl]
        rw [show extractAllTraces (some { data := some ts }) = ts.foldl extractStep []
          from rfl]
        rw [extract_foldl_keys]
        simp
  · intro p n
    rcases p with _ | ⟨d⟩
    · simp [extractAllTracesQuartile, payloadTraces]
    · rcases d with _ | ts
      · simp [extractAllTracesQuartile, payloadTraces]
      · rw [show payloadTraces (some { data := some ts }) = ts from rfl]
        rw [show extractAllTracesQuartile (some { data := some ts })
          = ts.foldl extractStepQuartile { traces := [], quartile1 := none, quartile3 := none }
          from rfl]
        rw [extractQuartile_foldl_keys]
        simp

/-- Reading back the key just written into an object returns the written value. -/
theorem assocGet_assocSet_self {β : Type} (l : List (String × β)) (k : String) (v : β) :
    assocGet (assocSet l k v) k = some v := by
  unfold assocSet assocGet
  split
  next h =>
    rw [List.find?_map]
    have hcomp : ((fun p => p.1 == k) ∘ (fun p : String × β => if p.1 == k then (k, v) else p))
        = fun p => p.1 == k := by
      funext p
      by_cases hp : p.1 = k
      · simp [hp]
      · simp [hp]
    rw [hcomp]
    obtain ⟨p, hp⟩ := Option.isSome_iff_exists.mp h
    rw [hp]
    have hpk := List.find?_some hp
    have he : p.1 = k := beq_iff_eq.mp hpk
    simp [he]
  next h =>
    rw [List.find?_append]
    have h1 : l.find? (fun p => p.1 == k) = none := by
      cases hf : l.find? (fun p => p.1 == k)
      · rfl
      · rw [hf] at h
        simp at h
    rw [h1]
    simp

/-- Writing one key of an object leaves every other key unchanged. -/
theorem assocGet_assocSet_ne {β : Type} (l : List (String × β)) (k : String) (v : β)
    (k' : String) (h : k' ≠ k) :
    assocGet (assocSet l k v) k' = assocGet l k' := by
  unfold assocSet assocGet
  split
  next hp =>
    rw [List.find?_map]
    have hcomp : ((fun p => p.1 == k') ∘ (fun p : String × β => if p.1 == k then (k, v) else p))
        = fun p => p.1 == k' := by
      funext p
      by_cases hpk : p.1 = k
      · simp [hpk, Ne.symm h]
      · simp [hpk]
    rw [hcomp]
    cases hf : l.find? (fun p => p.1 == k')
    · simp
    next p =>
      have h1 := List.find?_some hf
      have hpk' : p.1 = k' := beq_iff_eq.mp h1
      have hne : ¬ (p.1 = k) := by
        rw [hpk']
        exact h
      simp [hne]
  next hp =>
    rw [List.find?_append]
    have h2 : [(k, v)].find? (fun p => p.1 == k') = none := by
      have hb : (k == k') = false := beq_eq_false_iff_ne.mpr (Ne.symm h)
      simp [List.find?, hb]
    rw [h2]
    simp

/-- The numeric-coercion pass does not touch keys outside the column list. -/
theorem assocGet_coerce_not_mem (cols : List String) (r : Row) (k : String)
    (hk : k ∉ cols) :
    assocGet (coerceNumericCols cols r) k = assocGet r k := by
  induction cols generalizing r with
  | nil => rfl
  | cons c cs ih =>
    have hkc : k ≠ c := fun e => hk (e ▸ List.mem_cons_self c cs)
    have hkcs : k ∉ cs := fun e => hk (List.mem_cons_of_mem c e)
    have step : coerceNumericCols (c :: cs) r = coerceNumericCols cs
        (if truthy (assocGet r c) then
          assocSet r c (CellVal.num (jsParseIntOr0 (jsToString (assocGet r c))))
        else r) := rfl
    rw [step, ih _ hkcs]
    split
    · exact assocGet_assocSet_ne _ _ _ _ hkc
    · rfl

/-- The numeric-coercion pass never creates a key that was absent. -/
theorem assocGet_coerce_none (cols : List String) (r : Row) (k : String)
    (h : assocGet r k = none) :
    assocGet (coerceNumericCols cols r) k = none := by
  induction cols generalizing r with
  | nil => exact h
  | cons c cs ih =>
    have step : coerceNumericCols (c :: cs) r = coerceNumericCols cs
        (if truthy (assocGet r c) then
          assocSet r c (CellVal.num (jsParseIntOr0 (jsToString (assocGet r c))))
        else r) := rfl
    rw [step]
    apply ih
    by_cases hkc : k = c
    · subst hkc
      rw [h]
      simp [truthy]
      exact h
    · split
      · rw [assocGet_assocSet_ne _ _ _ _ hkc]
        exact h
      · exact h

/-- Records built from a CSV line hold only raw strings (or nothing) at every key. -/
theorem assoc_str_fold (ps : List (String × String)) (acc : Row) (k : String)
    (hacc : assocGet acc k = none ∨ ∃ s, assocGet acc k = some (CellVal.str s)) :
    assocGet (ps.foldl (fun r p => assocSet r p.1 (CellVal.str p.2)) acc) k = none
      ∨ ∃ s, assocGet (ps.foldl (fun r p => assocSet r p.1 (CellVal.str p.2)) acc) k
          = some (CellVal.str s) := by
  induction ps generalizing acc with
  | nil => exact hacc
  | cons p ps ih =>
    rw [List.foldl_cons]
    apply ih
    by_cases hpk : k = p.1
    · subst hpk
      exact Or.inr ⟨p.2, assocGet_assocSet_self _ _ _⟩
    · rw [assocGet_assocSet_ne _ _ _ _ hpk]
      exact hacc

/-- A key outside the headers is absent from the built record. -/
theorem buildRow_not_mem (headers values : List String) (k : String) (h : k ∉ headers) :
    assocGet (buildRow headers values) k = none := by
  unfold buildRow
  have : ∀ (ps : List (String × String)) (acc : Row), (∀ p ∈ ps, p.1 ≠ k) →
      assocGet acc k = none →
      assocGet (ps.foldl (fun r p => assocSet r p.1 (CellVal.str p.2)) acc) k = none := by
    intro ps
    induction ps with
    | nil => exact fun acc _ h2 => h2
    | cons p ps ih =>
      intro acc h1 h2
      rw [List.foldl_cons]
      refine ih _ (fun q hq => h1 q (List.mem_cons_of_mem p hq)) ?_
      rw [assocGet_assocSet_ne _ _ _ _ (Ne.symm (h1 p (List.mem_cons_self p ps)))]
      exact h2
  refine this _ _ (fun p hp => ?_) rfl
  exact fun e => h (e ▸ (List.of_mem_zip hp).1)

/-- Every value of a freshly built CSV record is a raw string, when present. -/
theorem buildRow_str (headers values : List String) (k : String) :
    assocGet (buildRow headers values) k = none
      ∨ ∃ s, assocGet (buildRow headers values) k = some (CellVal.str s) := by
  unfold buildRow
  exact assoc_str_fold _ _ _ (Or.inl rfl)

/-- The date-attachment pass is the identity when the `KW` field is falsy. -/
theorem attachDate_of_not_truthy (row : Row) (h : truthy (assocGet row "KW") = false) :
    attachDate row = row := by
  simp [attachDate, h]

/-- With a truthy `KW` field the date-attachment pass writes the `date` field. -/
theorem attachDate_of_truthy (row : Row) (h : truthy (assocGet row "KW") = true) :
    attachDate row = assocSet row "date"
      (match parseKW (jsToString (assocGet row "KW")) with
       | some d => CellVal.date d
       | none => CellVal.null) := by
  simp [attachDate, h]

/-- A data line survives the CSV parsers exactly when its field count matches the
header's and its week label resolves through `parseKW` — provided no CSV column
is itself named `date` and the `KW` column is not in the numeric-coercion list
(both hold for the two source parsers). -/
theorem parseCSVLine_isSome_iff (numericCols headers : List String) (line : List Char)
    (hdate : "date" ∉ headers) (hkw : "KW" ∉ numericCols) :
    (parseCSVLine numericCols headers line).isSome = true ↔
      ((parseFields line).length = headers.length
        ∧ ∃ s, lineKW headers line = some s ∧ (parseKW s).isSome = true) := by
  unfold parseCSVLine
  by_cases hlen : (parseFields line).length = headers.length
  case neg =>
    rw [if_pos (by simpa [bne_iff_ne] using hlen)]
    simp [hlen]
  case pos =>
    rw [if_neg (by simpa [bne_iff_ne] using hlen)]
    dsimp only
    have hkwval : assocGet (coerceNumericCols numericCols (buildRow headers (parseFields line)))
        "KW" = assocGet (buildRow headers (parseFields line)) "KW" :=
      assocGet_coerce_not_mem _ _ _ hkw
    have hdate0 : assocGet (coerceNumericCols numericCols (buildRow headers (parseFields line)))
        "date" = none :=
      assocGet_coerce_none _ _ _ (buildRow_not_mem _ _ _ hdate)
    rcases buildRow_str headers (parseFields line) "KW" with hnone | ⟨s, hs⟩
    · have h1 : truthy (assocGet (coerceNumericCols numericCols
          (buildRow headers (parseFields line))) "KW") = false := by
        rw [hkwval, hnone]
        rfl
      rw [attachDate_of_not_truthy _ h1, hdate0]
      simp [truthy, lineKW, hnone, hlen]
    · by_cases hse : s = ""
      · subst hse
        have h1 : truthy (assocGet (coerceNumericCols numericCols
            (buildRow headers (parseFields line))) "KW") = false := by
          rw [hkwval, hs]
          rfl
        rw [attachDate_of_not_truthy _ h1, hdate0]
        simp only [truthy, Option.isSome_none, lineKW, hs, hlen, true_and]
        constructor
        · intro h
          exact absurd h (by simp)
        · rintro ⟨s', hs', hp⟩
          injection hs' with e
          subst e
          exact absurd hp (by decide)
      · have h1 : truthy (assocGet (coerceNumericCols numericCols
            (buildRow headers (parseFields line))) "KW") = true := by
          rw [hkwval, hs]
          simp [truthy, hse]
        rw [attachDate_of_truthy _ h1, assocGet_assocSet_self]
        have hstr : jsToString (assocGet (coerceNumericCols numericCols
            (buildRow headers (parseFields line))) "KW") = s := by
          rw [hkwval, hs]
          rfl
        rw [hstr]
        cases hp : parseKW s
        · simp [truthy, lineKW, hs, hlen, hp]
        · simp [truthy, lineKW, hs, hlen, hp]

/-- Every record produced by the shared CSV parser body comes from some data line
via `parseCSVLine`. -/
theorem mem_parseCSVWith (cols : List String) (csvText : String) (row : Row)
    (h : row ∈ parseCSVWith cols csvText) :
    ∃ headers line, parseCSVLine cols headers line = some row := by
  unfold parseCSVWith at h
  cases hlines : splitOnChar '\n' (jsTrim csvText.data) with
  | nil =>
    rw [hlines] at h
    simp at h
  | cons l0 rest =>
    rw [hlines] at h
    dsimp only at h
    split at h
    · simp at h
    · rw [List.mem_filterMap] at h
      obtain ⟨line, _, hline⟩ := h
      exact ⟨parseFields l0, line, hline⟩

/-- One coercion step keeps a field in the numeric-or-blank shape. -/
theorem coerceStep_preserves (r : Row) (c k : String)
    (h : numericishCell (assocGet r k)) :
    numericishCell (assocGet
      (if truthy (assocGet r c) then
        assocSet r c (CellVal.num (jsParseIntOr0 (jsToString (assocGet r c))))
      else r) k) := by
  by_cases hkc : k = c
  · subst hkc
    rcases h with ⟨n, hn⟩ | hblank | hnone
    · rw [hn]
      by_cases hz : n = 0
      · subst hz
        simp [truthy]
        exact Or.inl ⟨0, hn⟩
      · simp [truthy, hz]
        exact Or.inl ⟨_, assocGet_assocSet_self _ _ _⟩
    · rw [hblank]
      simp [truthy]
      exact Or.inr (Or.inl hblank)
    · rw [hnone]
      simp [truthy]
      exact Or.inr (Or.inr hnone)
  · split
    · rw [assocGet_assocSet_ne _ _ _ _ hkc]
      exact h
    · exact h

/-- The whole coercion pass keeps a field in the numeric-or-blank shape. -/
theorem coerce_preserves (cols : List String) (r : Row) (k : String)
    (h : numericishCell (assocGet r k)) :
    numericishCell (assocGet (coerceNumericCols cols r) k) := by
  induction cols generalizing r with
  | nil => exact h
  | cons c cs ih =>
    have step : coerceNumericCols (c :: cs) r = coerceNumericCols cs
        (if truthy (assocGet r c) then
          assocSet r c (CellVal.num (jsParseIntOr0 (jsToString (assocGet r c))))
        else r) := rfl
    rw [step]
    exact ih _ (coerceStep_preserves r c k h)

/-- After coercing, a column of the numeric list holds an integer, a blank string
or nothing, given that the record held a raw string or nothing there. -/
theorem coerce_numericish_of_mem (cols : List String) (r : Row) (k : String)
    (hmem : k ∈ cols)
    (hinit : assocGet r k = none ∨ ∃ s, assocGet r k = some (CellVal.str s)) :
    numericishCell (assocGet (coerceNumericCols cols r) k) := by
  induction cols generalizing r with
  | nil => cases hmem
  | cons c cs ih =>
    have step : coerceNumericCols (c :: cs) r = coerceNumericCols cs
        (if truthy (assocGet r c) then
          assocSet r c (CellVal.num (jsParseIntOr0 (jsToString (assocGet r c))))
        else r) := rfl
    rw [step]
    by_cases hkc : k = c
    · subst hkc
      apply coerce_preserves
      rcases hinit with hnone | ⟨s, hs⟩
      · rw [hnone]
        simp [truthy]
        exact Or.inr (Or.inr hnone)
      · by_cases hse : s = ""
        · subst hse
          rw [hs]
          simp [truthy]
          exact Or.inr (Or.inl hs)
        · rw [hs]
          simp [truthy, hse]
          exact Or.inl ⟨_, assocGet_assocSet_self _ _ _⟩
    · have hmem' : k ∈ cs := by
        cases hmem with
        | head => exact absurd rfl hkc
        | tail _ hm => exact hm
      apply ih _ hmem'
      split
      · rw [assocGet_assocSet_ne _ _ _ _ hkc]
        exact hinit
      · exact hinit

/-- A surviving record holds an integer, a blank string or nothing at every column
of the numeric-coercion list (provided that column is not named `date`). -/
theorem parseCSVLine_numericish (cols headers : List String) (line : List Char)
    (row : Row) (k : String)
    (hrow : parseCSVLine cols headers line = some row)
    (hk : k ∈ cols) (hkdate : k ≠ "date") :
    numericishCell (assocGet row k) := by
  unfold parseCSVLine at hrow
  dsimp only at hrow
  split at hrow
  · cases hrow
  · split at hrow
    · injection hrow with e
      subst e
      have hbase : numericishCell (assocGet (coerceNumericCols cols
          (buildRow headers (parseFields line))) k) :=
        coerce_numericish_of_mem cols _ k hk
          (by rcases buildRow_str headers (parseFields line) k with h | ⟨s, hs⟩
              · exact Or.inl h
              · exact Or.inr ⟨s, hs⟩)
      by_cases ht : truthy (assocGet (coerceNumericCols cols
          (buildRow headers (parseFields line))) "KW") = true
      · rw [attachDate_of_truthy _ ht, assocGet_assocSet_ne _ _ _ _ hkdate]
        exact hbase
      · rw [attachDate_of_not_truthy _ (by simpa using ht)]
        exact hbase
    · cases hrow

/-- C6 counterexample: a CSV whose header itself contains a column named `date`
keeps a data line that has no week label at all (its `KW` field is absent and
nothing resolves to a date), because the CSV's own truthy `date` value passes the
survival check. The claim's characterisation would require this line to be
dropped. -/
theorem C6_date_column_line_kept :
    parseCSV "A;date\nx;hello"
      = [[("A", CellVal.str "x"), ("date", CellVal.str "hello")]]
    ∧ assocGet [("A", CellVal.str "x"), ("date", CellVal.str "hello")] "KW" = none := by
  refine ⟨by decide, by decide⟩

/-- C6 (amended): with fewer than two lines the parsers return no records; with at
least two lines the output is exactly the in-order `filterMap` of the per-line
processing over the data lines; and — provided no column is itself named `date`
(true of the source feeds) — a data line survives exactly when its field count
equals the header's and its week label resolves through `parseKW`. A CSV with a
literal `date` column can additionally keep lines whose `date` value is truthy
even though no week label resolves. -/
theorem C6_parseCSV_characterization :
    (∀ (numericCols : List String) (csvText : String),
        (linesOf csvText).length < 2 → parseCSVWith numericCols csvText = [])
    ∧ (∀ (numericCols : List String) (csvText : String) (l0 : List Char)
          (rest : List (List Char)),
        linesOf csvText = l0 :: rest → 2 ≤ (linesOf csvText).length →
        parseCSVWith numericCols csvText
          = rest.filterMap (parseCSVLine numericCols (parseFields l0)))
    ∧ (∀ (numericCols headers : List String) (line : List Char),
        "date" ∉ headers → "KW" ∉ numericCols →
        ((parseCSVLine numericCols headers line).isSome = true ↔
          ((parseFields line).length = headers.length
            ∧ ∃ s, lineKW headers line = some s ∧ (parseKW s).isSome = true))) := by
  refine ⟨?_, ?_, parseCSVLine_isSome_iff⟩
  · intro cols text hlt
    have e : parseCSVWith cols text
        = if (linesOf text).length < 2 then []
          else match linesOf text with
            | [] => []
            | l0 :: rest => rest.filterMap (parseCSVLine cols (parseFields l0)) := rfl
    rw [e, if_pos hlt]
  · intro cols text l0 rest he h2
    have e : parseCSVWith cols text
        = if (linesOf text).length < 2 then []
          else match linesOf text with
            | [] => []
            | l0 :: rest => rest.filterMap (parseCSVLine cols (parseFields l0)) := rfl
    rw [e, he, if_neg (by rw [he] at h2; omega)]

/-- C6 witness: the characterisation applies, e.g., to the SARI parser with a
header-only text and with the header `KW;COVID`. -/
theorem C6_parseCSV_characterization_witness :
    parseCSVWith sariNumericCols "KW;COVID" = []
    ∧ parseCSVWith sariNumericCols "KW;COVID\n1. KW 2023;5"
        = ["1. KW 2023;5".data].filterMap
            (parseCSVLine sariNumericCols (parseFields "KW;COVID".data))
    ∧ ((parseCSVLine sariNumericCols ["KW", "COVID"] "1. KW 2023;5".data).isSome = true ↔
        ((parseFields "1. KW 2023;5".data).length = (["KW", "COVID"] : List String).length
          ∧ ∃ s, lineKW ["KW", "COVID"] "1. KW 2023;5".data = some s
              ∧ (parseKW s).isSome = true)) :=
  ⟨C6_parseCSV_characterization.1 sariNumericCols "KW;COVID" (by decide),
   C6_parseCSV_characterization.2.1 sariNumericCols "KW;COVID\n1. KW 2023;5"
     "KW;COVID".data ["1. KW 2023;5".data] (by decide) (by decide),
   C6_parseCSV_characterization.2.2 sariNumericCols ["KW", "COVID"]
     "1. KW 2023;5".data (by decide) (by decide)⟩

/-- C7 counterexample: an empty numeric field is not coerced to the integer 0 —
the surviving record keeps the empty string (the downstream `|| 0` idiom, not the
parser, maps it to 0). -/
theorem C7_empty_field_stays_string :
    parseCSV "KW;COVID\n1. KW 2023;"
      = [[("KW", CellVal.str "1. KW 2023"), ("COVID", CellVal.str ""),
          ("date", CellVal.date (rataDie 2023 1 2))]]
    ∧ some (CellVal.str "") ≠ some (CellVal.num 0) := by
  refine ⟨by decide, by decide⟩

/-- C7 (amended): in every record surviving `parseCSV` or `parseDemographicsCSV`,
each declared numeric field holds an integer, except that an empty input field is
left as the empty string (coerced to 0 only by the `|| 0` consumers) and an
absent column stays absent; a truthy non-numeric field is coerced to the
integer 0 through `parseInt(x) || 0`. -/
theorem C7_numeric_fields_amended :
    (∀ (csvText : String) (row : Row), row ∈ parseCSV csvText →
        ∀ k ∈ sariNumericCols, numericishCell (assocGet row k))
    ∧ (∀ (csvText : String) (row : Row), row ∈ parseDemographicsCSV csvText →
        ∀ k ∈ demographicsNumericCols, numericishCell (assocGet row k)) := by
  constructor
  · intro text row hrow k hk
    obtain ⟨headers, line, hline⟩ := mem_parseCSVWith _ _ _ hrow
    refine parseCSVLine_numericish _ _ _ _ _ hline hk ?_
    simp only [sariNumericCols, List.mem_cons, List.not_mem_nil, or_false] at hk
    rcases hk with rfl | rfl | rfl | rfl | rfl | rfl <;> decide
  · intro text row hrow k hk
    obtain ⟨headers, line, hline⟩ := mem_parseCSVWith _ _ _ hrow
    refine parseCSVLine_numericish _ _ _ _ _ hline hk ?_
    simp only [demographicsNumericCols, List.mem_cons, List.not_mem_nil, or_false] at hk
    rcases hk with rfl | rfl | rfl | rfl | rfl | rfl | rfl <;> decide

/-- C7 witness: the SARI half applies to the record parsed from `1. KW 2023;7`
under the header `KW;COVID`, at the column `COVID`. -/
theorem C7_numeric_fields_amended_witness :
    numericishCell (assocGet
      [("KW", CellVal.str "1. KW 2023"), ("COVID", CellVal.num 7),
       ("date", CellVal.date (rataDie 2023 1 2))] "COVID") :=
  C7_numeric_fields_amended.1 "KW;COVID\n1. KW 2023;7"
    [("KW", CellVal.str "1. KW 2023"), ("COVID", CellVal.num 7),
     ("date", CellVal.date (rataDie 2023 1 2))]
    (by decide) "COVID" (by decide)

/-- Adding the zero bucket changes nothing. -/
theorem addTotals_zero (t : DiagTotals) : addTotals t zeroTotals = t := by
  cases t
  simp [addTotals, zeroTotals]

/-- Adding one record is adding its diagnosis deltas. -/
theorem addDiag_eq_addTotals (t : DiagTotals) (row : Row) :
    addDiag t row = addTotals t (addDiag zeroTotals row) := by
  cases t
  simp only [addDiag, addTotals, zeroTotals, DiagTotals.mk.injEq]
  omega

/-- Bucket addition is associative. -/
theorem addTotals_assoc (a b c : DiagTotals) :
    addTotals (addTotals a b) c = addTotals a (addTotals b c) := by
  cases a
  cases b
  cases c
  simp only [addTotals, DiagTotals.mk.injEq]
  omega

/-- Bucket addition commutes with itself on the left. -/
theorem addTotals_left_comm (a b c : DiagTotals) :
    addTotals a (addTotals b c) = addTotals b (addTotals a c) := by
  cases a
  cases b
  cases c
  simp only [addTotals, DiagTotals.mk.injEq]
  omega

/-- A diagnosis-sum loop starting from any accumulator is the accumulator plus the
sum from zero. -/
theorem foldl_addDiag_acc (rows : List Row) (t : DiagTotals) :
    rows.foldl addDiag t = addTotals t (rows.foldl addDiag zeroTotals) := by
  induction rows generalizing t with
  | nil => exact (addTotals_zero t).symm
  | cons r rs ih =>
    rw [List.foldl_cons, List.foldl_cons, ih (addDiag t r), ih (addDiag zeroTotals r),
      addDiag_eq_addTotals t r, addTotals_assoc]

/-- One grouping step adds the record's deltas to the bucket of its date and leaves
every other date's totals unchanged. -/
theorem groupTotals_addRow (g : List (Int × DiagTotals)) (row : Row) (d : Int) :
    groupTotals (addRowToGroup g row) d
      = if rowDate row = d then addDiag (groupTotals g d) row else groupTotals g d := by
  unfold addRowToGroup
  dsimp only
  split
  next hpresent =>
    unfold groupTotals
    rw [List.find?_map]
    have hcomp : ((fun p : Int × DiagTotals => p.1 == d)
        ∘ (fun p : Int × DiagTotals => if p.1 == rowDate row then (p.1, addDiag p.2 row) else p))
        = fun p : Int × DiagTotals => p.1 == d := by
      funext p
      by_cases hp : p.1 = rowDate row
      · simp [hp]
      · simp [hp]
    rw [hcomp]
    by_cases hd : rowDate row = d
    · subst hd
      obtain ⟨p, hp⟩ := Option.isSome_iff_exists.mp hpresent
      rw [hp]
      have hp1 := List.find?_some hp
      have he : p.1 = rowDate row := beq_iff_eq.mp hp1
      simp [he]
    · rw [if_neg hd]
      cases hf : g.find? (fun p => p.1 == d)
      · simp
      next p =>
        have hp1 := List.find?_some hf
        have he : p.1 = d := beq_iff_eq.mp hp1
        have hne : ¬ (p.1 = rowDate row) := by
          rw [he]
          exact fun e => hd e.symm
        simp [hne]
  next habsent =>
    unfold groupTotals
    rw [List.find?_append]
    have hgnone : g.find? (fun p => p.1 == rowDate row) = none := by
      cases hf : g.find? (fun p => p.1 == rowDate row)
      · rfl
      · rw [hf] at habsent
        simp at habsent
    by_cases hd : rowDate row = d
    · subst hd
      rw [hgnone]
      simp
    · have hone : [(rowDate row, addDiag zeroTotals row)].find? (fun p => p.1 == d) = none := by
        have hb : (rowDate row == d) = false := beq_eq_false_iff_ne.mpr hd
        simp [List.find?, hb]
      rw [hone, if_neg hd]
      cases g.find? (fun p => p.1 == d)
      · simp
      · simp

/-- The whole grouping loop computes, per date, the diagnosis totals of the records
carrying that date. -/
theorem groupTotals_foldl (rows : List Row) (g : List (Int × DiagTotals)) (d : Int) :
    groupTotals (rows.foldl addRowToGroup g) d
      = (rows.filter (fun r => rowDate r == d)).foldl addDiag (groupTotals g d) := by
  induction rows generalizing g with
  | nil => rfl
  | cons r rs ih =>
    rw [List.foldl_cons, ih, groupTotals_addRow]
    by_cases hd : rowDate r = d
    · rw [if_pos hd]
      have : (rowDate r == d) = true := beq_iff_eq.mpr hd
      simp [List.filter_cons, this]
    · rw [if_neg hd]
      have : (rowDate r == d) = false := beq_eq_false_iff_ne.mpr hd
      simp [List.filter_cons, this]

/-- Grouping keeps the date keys distinct. -/
theorem addRowToGroup_keys_nodup (g : List (Int × DiagTotals)) (row : Row)
    (h : (g.map Prod.fst).Nodup) : ((addRowToGroup g row).map Prod.fst).Nodup := by
  unfold addRowToGroup
  dsimp only
  split
  next hpresent =>
    have hkeys : ((g.map (fun p => if p.1 == rowDate row then (p.1, addDiag p.2 row) else p)).map
        Prod.fst) = g.map Prod.fst := by
      rw [List.map_map]
      apply List.map_congr_left
      intro p _
      by_cases hp : p.1 = rowDate row
      · simp [hp]
      · simp [hp]
    rw [hkeys]
    exact h
  next habsent =>
    rw [List.map_append]
    rw [List.nodup_append]
    refine ⟨h, List.nodup_singleton _, ?_⟩
    intro a ha hb
    simp at hb
    rw [List.mem_map] at ha
    obtain ⟨p, hp, he⟩ := ha
    have hgnone : g.find? (fun p => p.1 == rowDate row) = none := by
      cases hf : g.find? (fun p => p.1 == rowDate row)
      · rfl
      · rw [hf] at habsent
        simp at habsent
    have := List.find?_eq_none.mp hgnone p hp
    apply this
    rw [he, hb]
    exact beq_self_eq_true _

/-- The grouping loop keeps the date keys distinct. -/
theorem foldl_group_keys_nodup (rows : List Row) (g : List (Int × DiagTotals))
    (h : (g.map Prod.fst).Nodup) :
    (((rows.foldl addRowToGroup g)).map Prod.fst).Nodup := by
  induction rows generalizing g with
  | nil => exact h
  | cons r rs ih => exact ih _ (addRowToGroup_keys_nodup g r h)

/-- With distinct date keys, the per-date totals of a bucket list are invariant
under permutation (in particular under the final date sort). -/
theorem groupTotals_perm (g g' : List (Int × DiagTotals)) (hp : g.Perm g')
    (hnd : (g.map Prod.fst).Nodup) (d : Int) :
    groupTotals g d = groupTotals g' d := by
  unfold groupTotals
  cases hf : g.find? (fun p => p.1 == d) with
  | none =>
    have hnone := List.find?_eq_none.mp hf
    have : g'.find? (fun p => p.1 == d) = none :=
      List.find?_eq_none.mpr (fun p hp' => hnone p (hp.symm.subset hp'))
    rw [this]
  | some p =>
    have hmem : p ∈ g := List.mem_of_find?_eq_some hf
    have hpb := List.find?_some hf
    have hpd : p.1 = d := beq_iff_eq.mp hpb
    cases hf' : g'.find? (fun p => p.1 == d) with
    | none =>
      have := List.find?_eq_none.mp hf' p (hp.subset hmem)
      simp [hpd] at this
    | some q =>
      have hqmem : q ∈ g := hp.symm.subset (List.mem_of_find?_eq_some hf')
      have hqb := List.find?_some hf'
      have hqd : q.1 = d := beq_iff_eq.mp hqb
      have hpq : p = q :=
        List.inj_on_of_nodup_map hnd hmem hqmem (by rw [hpd, hqd])
      rw [hpq]

/-- Splitting a diagnosis sum along two exclusive, covering predicates. -/
theorem foldl_addDiag_split (rows : List Row) (p q pq : Row → Bool)
    (hcover : ∀ r ∈ rows, pq r = (p r || q r))
    (hexcl : ∀ r ∈ rows, ¬(p r = true ∧ q r = true)) :
    (rows.filter pq).foldl addDiag zeroTotals
      = addTotals ((rows.filter p).foldl addDiag zeroTotals)
          ((rows.filter q).foldl addDiag zeroTotals) := by
  induction rows with
  | nil => simp [zeroTotals, addTotals]
  | cons r rs ih =>
    have ih' := ih (fun a ha => hcover a (List.mem_cons_of_mem r ha))
      (fun a ha => hexcl a (List.mem_cons_of_mem r ha))
    have hc := hcover r (List.mem_cons_self r rs)
    have he := hexcl r (List.mem_cons_self r rs)
    by_cases hp : p r = true
    · have hq : q r = false := by
        cases hqv : q r
        · rfl
        · exact absurd ⟨hp, hqv⟩ he
      have hpq : pq r = true := by rw [hc, hp]; rfl
      rw [List.filter_cons_of_pos hpq, List.filter_cons_of_pos hp,
        List.filter_cons_of_neg (by simp [hq]),
        List.foldl_cons, List.foldl_cons,
        foldl_addDiag_acc _ (addDiag zeroTotals r),
        foldl_addDiag_acc _ (addDiag zeroTotals r), ih', addTotals_assoc]
    · have hp' : p r = false := by
        cases hpv : p r
        · rfl
        · exact absurd hpv hp
      by_cases hqv : q r = true
      · have hpq : pq r = true := by rw [hc, hp', hqv]; rfl
        rw [List.filter_cons_of_pos hpq, List.filter_cons_of_neg (by simp [hp']),
          List.filter_cons_of_pos hqv,
          List.foldl_cons, List.foldl_cons,
          foldl_addDiag_acc _ (addDiag zeroTotals r),
          foldl_addDiag_acc _ (addDiag zeroTotals r), ih', addTotals_left_comm]
      · have hq' : q r = false := by
          cases hqq : q r
          · rfl
          · exact absurd hqq hqv
        have hpq : pq r = false := by rw [hc, hp', hq']; rfl
        rw [List.filter_cons_of_neg (by simp [hpq]),
          List.filter_cons_of_neg (by simp [hp']),
          List.filter_cons_of_neg (by simp [hq']), ih']

/-- The two conditional filter passes of the SARI aggregations are one filter with
a conjunctive predicate (the sentinels contribute a vacuous conjunct). -/
theorem applyRegionStationFilter_eq_filter (field : String) (rows : List Row)
    (bundesland station : String) :
    applyRegionStationFilter field rows bundesland station
      = rows.filter (fun r =>
          (bundesland == "AT" || jsStrictEqStr (assocGet r field) bundesland)
          && (station == "ALL" || jsStrictEqStr (assocGet r "STATION") station)) := by
  unfold applyRegionStationFilter
  by_cases hbl : bundesland = "AT" <;> by_cases hst : station = "ALL"
  · have e1 : (bundesland != "AT") = false := by simp [hbl]
    have e2 : (station != "ALL") = false := by simp [hst]
    simp only [e1, e2, Bool.false_eq_true, if_false]
    symm
    apply List.filter_eq_self.mpr
    intro r _
    simp [hbl, hst]
  · have e1 : (bundesland != "AT") = false := by simp [hbl]
    have e2 : (station != "ALL") = true := by simp [hst]
    simp only [e1, e2, Bool.false_eq_true, if_false, if_true]
    apply List.filter_congr
    intro r _
    simp [hbl, beq_eq_false_iff_ne.mpr hst]
  · have e1 : (bundesland != "AT") = true := by simp [hbl]
    have e2 : (station != "ALL") = false := by simp [hst]
    simp only [e1, e2, Bool.false_eq_true, if_false, if_true]
    apply List.filter_congr
    intro r _
    simp [hst, beq_eq_false_iff_ne.mpr hbl]
  · have e1 : (bundesland != "AT") = true := by simp [hbl]
    have e2 : (station != "ALL") = true := by simp [hst]
    simp only [e1, e2, if_true, List.filter_filter]
    apply List.filter_congr
    intro r _
    simp [beq_eq_false_iff_ne.mpr hbl, beq_eq_false_iff_ne.mpr hst, Bool.and_comm]

/-- A record value strictly equal to two strings forces the strings equal. -/
theorem jsStrictEqStr_unique (v : Option CellVal) (a b : String)
    (ha : jsStrictEqStr v a = true) (hb : jsStrictEqStr v b = true) : a = b := by
  unfold jsStrictEqStr at ha hb
  match v with
  | none => cases ha
  | some (.num n) => cases ha
  | some (.date d) => cases ha
  | some .null => cases ha
  | some (.str t) =>
    have h1 : t = a := beq_iff_eq.mp ha
    have h2 : t = b := beq_iff_eq.mp hb
    rw [← h1, h2]

/-- The per-date totals of `filterSariData` are the diagnosis sums of the records
passing the region/station filters and carrying that date. -/
theorem filterSariData_totals (rows : List Row) (bundesland station : String) (d : Int) :
    groupTotals (filterSariData rows bundesland station) d
      = (rows.filter (fun r =>
          ((bundesland == "AT" || jsStrictEqStr (assocGet r "BUNDESLAND") bundesland)
            && (station == "ALL" || jsStrictEqStr (assocGet r "STATION") station))
          && (rowDate r == d))).foldl addDiag zeroTotals := by
  unfold filterSariData
  dsimp only
  have hnodup : (((applyRegionStationFilter "BUNDESLAND" rows bundesland station).foldl
      addRowToGroup []).map Prod.fst).Nodup :=
    foldl_group_keys_nodup _ [] (by simp)
  have hperm : (((applyRegionStationFilter "BUNDESLAND" rows bundesland station).foldl
      addRowToGroup []).insertionSort (fun a b => a.1 ≤ b.1)).Perm
      ((applyRegionStationFilter "BUNDESLAND" rows bundesland station).foldl
        addRowToGroup []) :=
    List.perm_insertionSort _ _
  rw [← groupTotals_perm _ _ hperm.symm hnodup d, groupTotals_foldl,
    applyRegionStationFilter_eq_filter, List.filter_filter]
  have hz : groupTotals ([] : List (Int × DiagTotals)) d = zeroTotals := rfl
  rw [hz]
  congr 1
  apply List.filter_congr
  intro r _
  exact Bool.and_comm _ _

/-- C4: for a record set partitioned between two concrete region codes, the
per-date, per-diagnosis totals of the unfiltered ("AT") aggregation are the sums
of the two per-region aggregations. -/
theorem C4_filterSariData_region_additivity (rows : List Row) (st r1 r2 : String)
    (h1 : r1 ≠ "AT") (h2 : r2 ≠ "AT") (h12 : r1 ≠ r2)
    (hpart : ∀ row ∈ rows,
      jsStrictEqStr (assocGet row "BUNDESLAND") r1 = true
        ∨ jsStrictEqStr (assocGet row "BUNDESLAND") r2 = true)
    (d : Int) :
    groupTotals (filterSariData rows "AT" st) d
      = addTotals (groupTotals (filterSariData rows r1 st) d)
          (groupTotals (filterSariData rows r2 st) d) := by
  rw [filterSariData_totals, filterSariData_totals, filterSariData_totals]
  apply foldl_addDiag_split
  · intro r hr
    have hb1 : (r1 == "AT") = false := beq_eq_false_iff_ne.mpr h1
    have hb2 : (r2 == "AT") = false := beq_eq_false_iff_ne.mpr h2
    rcases hpart r hr with h | h
    · by_cases hq : jsStrictEqStr (assocGet r "BUNDESLAND") r2 = true
      · exact absurd (jsStrictEqStr_unique _ _ _ h hq) h12
      · have hq' : jsStrictEqStr (assocGet r "BUNDESLAND") r2 = false := by
          cases hv : jsStrictEqStr (assocGet r "BUNDESLAND") r2
          · rfl
          · exact absurd hv hq
        simp [h, hq', hb1, hb2]
    · by_cases hp : jsStrictEqStr (assocGet r "BUNDESLAND") r1 = true
      · exact absurd (jsStrictEqStr_unique _ _ _ hp h) h12
      · have hp' : jsStrictEqStr (assocGet r "BUNDESLAND") r1 = false := by
          cases hv : jsStrictEqStr (assocGet r "BUNDESLAND") r1
          · rfl
          · exact absurd hv hp
        simp [h, hp', hb1, hb2]
  · intro r hr hcontra
    obtain ⟨hp, hq⟩ := hcontra
    have hb1 : (r1 == "AT") = false := beq_eq_false_iff_ne.mpr h1
    have hb2 : (r2 == "AT") = false := beq_eq_false_iff_ne.mpr h2
    rw [hb1] at hp
    rw [hb2] at hq
    simp only [Bool.false_or, Bool.and_eq_true] at hp hq
    exact h12 (jsStrictEqStr_unique _ _ _ hp.1.1 hq.1.1)

/-- C4 witness: a two-region, two-week record set with the regions "W" and "NÖ"
and no station filter satisfies the partition hypotheses. -/
theorem C4_filterSariData_region_additivity_witness :
    groupTotals (filterSariData
      [[("BUNDESLAND", CellVal.str "W"), ("STATION", CellVal.str "N"),
        ("date", CellVal.date 1), ("COVID", CellVal.num 3)],
       [("BUNDESLAND", CellVal.str "NÖ"), ("STATION", CellVal.str "N"),
        ("date", CellVal.date 1), ("COVID", CellVal.num 4)]] "AT" "ALL") 1
      = addTotals
          (groupTotals (filterSariData
            [[("BUNDESLAND", CellVal.str "W"), ("STATION", CellVal.str "N"),
              ("date", CellVal.date 1), ("COVID", CellVal.num 3)],
             [("BUNDESLAND", CellVal.str "NÖ"), ("STATION", CellVal.str "N"),
              ("date", CellVal.date 1), ("COVID", CellVal.num 4)]] "W" "ALL") 1)
          (groupTotals (filterSariData
            [[("BUNDESLAND", CellVal.str "W"), ("STATION", CellVal.str "N"),
              ("date", CellVal.date 1), ("COVID", CellVal.num 3)],
             [("BUNDESLAND", CellVal.str "NÖ"), ("STATION", CellVal.str "N"),
              ("date", CellVal.date 1), ("COVID", CellVal.num 4)]] "NÖ" "ALL") 1) :=
  C4_filterSariData_region_additivity _ "ALL" "W" "NÖ"
    (by decide) (by decide) (by decide) (by decide) 1

/-- C3: the heatmap aggregation adds the population figure of EVERY filtered row
to its (week, age group) bucket — with two rows for the same
(age group, gender, week) triple (two regions under the "AT" no-filter
selection, population figure 100 each) the bucket ends up with a population sum
of 200 and a sample count of 2, although the source's own comment says the
population is counted "only once per KW/age group". -/
theorem C3_heatmap_population_double_count :
    aggregateHeatmapData
      [[("WOHNORT", CellVal.str "W"), ("STATION", CellVal.str "N"),
        ("ALTERSGRUPPE", CellVal.str "0 - 4"), ("GESCHLECHT", CellVal.str "M"),
        ("KW", CellVal.str "1. KW 2023"), ("COVID", CellVal.num 1),
        ("BEV_ZAHL", CellVal.num 100)],
       [("WOHNORT", CellVal.str "NÖ"), ("STATION", CellVal.str "N"),
        ("ALTERSGRUPPE", CellVal.str "0 - 4"), ("GESCHLECHT", CellVal.str "M"),
        ("KW", CellVal.str "1. KW 2023"), ("COVID", CellVal.num 1),
        ("BEV_ZAHL", CellVal.num 100)]] "AT" "ALL" "COVID"
      = [{ kw := "1. KW 2023", ageGroup := "0 - 4", count := 2, pop := 200, popCount := 2 }]
    ∧ (200 : Int) ≠ 100 ∧ (2 : Nat) ≠ 1 := by
  refine ⟨by decide, by decide, by decide⟩

/-- C1 counterexample: a demographics bucket with no population sample (P = 0)
keeps its raw count under the per-100k toggle — the COVID bucket with count 5 and
population 0 reports 5 (the raw count), not 0; the heatmap per-100k cell value
does the same. -/
theorem C1_zero_population_keeps_raw_count :
    ((per100kDemographics (aggregateDemographicsData
        [[("WOHNORT", CellVal.str "W"), ("STATION", CellVal.str "N"),
          ("ALTERSGRUPPE", CellVal.str "0 - 4"), ("GESCHLECHT", CellVal.str "M"),
          ("KW", CellVal.str "1. KW 2023"), ("COVID", CellVal.num 5)]]
        "AT" "ALL" none none)).map (fun it => (it.count, it.population)))
      = [(5, 0), (0, 0), (0, 0), (0, 0), (0, 0)]
    ∧ heatCellValue (aggregateHeatmapData
        [[("WOHNORT", CellVal.str "W"), ("STATION", CellVal.str "N"),
          ("ALTERSGRUPPE", CellVal.str "0 - 4"), ("GESCHLECHT", CellVal.str "M"),
          ("KW", CellVal.str "1. KW 2023"), ("COVID", CellVal.num 5)]]
        "AT" "ALL" "COVID") "1. KW 2023" "0 - 4" true = 5
    ∧ (5 : ℚ) ≠ 0 := by
  refine ⟨by decide, by decide, by decide⟩

/-- C1 (amended): under the per-100k toggle, a demographics bucket with positive
average population P reports exactly (count / P) · 100000, and a bucket with
P = 0 (no population sample) reports the raw count unchanged — finite, never NaN
or Infinity, but not 0. The heatmap cell values behave the same way: with at
least one population sample the count is divided by the average population
(a degenerate nonpositive average yields 0), with none the raw count is
reported. -/
theorem C1_per100k_normalisation :
    (∀ (data : List Row) (bundesland station : String) (startDate endDate : Option Int)
        (it : DemoItemQ),
      it ∈ per100kDemographics (aggregateDemographicsData data bundesland station
        startDate endDate) →
      ∃ it0 ∈ aggregateDemographicsData data bundesland station startDate endDate,
        it.population = it0.population
        ∧ (0 < it0.population →
            it.count = ((it0.count : ℚ) / it0.population) * 100000)
        ∧ (¬ 0 < it0.population → it.count = (it0.count : ℚ)))
    ∧ (∀ (data : List Row) (bundesland station diagnose kw ag : String)
        (item : HeatBucket),
      (aggregateHeatmapData data bundesland station diagnose).find?
          (fun d => d.kw == kw && d.ageGroup == ag) = some item →
      (0 < item.popCount →
        heatCellValue (aggregateHeatmapData data bundesland station diagnose) kw ag true
          = if 0 < ((item.pop : ℚ) / (item.popCount : ℚ))
            then ((item.count : ℚ) / ((item.pop : ℚ) / (item.popCount : ℚ))) * 100000
            else 0)
      ∧ (item.popCount = 0 →
        heatCellValue (aggregateHeatmapData data bundesland station diagnose) kw ag true
          = (item.count : ℚ))) := by
  constructor
  · intro data bundesland station startDate endDate it hmem
    unfold per100kDemographics at hmem
    rw [List.mem_map] at hmem
    obtain ⟨it0, h0, he⟩ := hmem
    refine ⟨it0, h0, ?_, ?_, ?_⟩
    · rw [← he]
    · intro hpos
      rw [← he]
      simp [hpos]
    · intro hpos
      rw [← he]
      simp [hpos]
  · intro data bundesland station diagnose kw ag item hfind
    unfold heatCellValue
    rw [hfind]
    constructor
    · intro hpos
      dsimp only
      rw [if_pos hpos]
      simp
    · intro hzero
      dsimp only
      rw [if_neg (show ¬ 0 < item.popCount by omega)]
      simp

/-- C1 witness: both halves of the per-100k statement apply to the one-record
data set of the counterexample: the demographics COVID bucket has population 0
and keeps its count, and the heatmap bucket of week "1. KW 2023", age group
"0 - 4" has no population sample and keeps its count. -/
theorem C1_per100k_normalisation_witness :
    (∃ it0 ∈ aggregateDemographicsData
        [[("WOHNORT", CellVal.str "W"), ("STATION", CellVal.str "N"),
          ("ALTERSGRUPPE", CellVal.str "0 - 4"), ("GESCHLECHT", CellVal.str "M"),
          ("KW", CellVal.str "1. KW 2023"), ("COVID", CellVal.num 5)]] "AT" "ALL" none none,
      (0 : ℚ) = it0.population
      ∧ (0 < it0.population → (5 : ℚ) = ((it0.count : ℚ) / it0.population) * 100000)
      ∧ (¬ 0 < it0.population → (5 : ℚ) = (it0.count : ℚ)))
    ∧ heatCellValue (aggregateHeatmapData
        [[("WOHNORT", CellVal.str "W"), ("STATION", CellVal.str "N"),
          ("ALTERSGRUPPE", CellVal.str "0 - 4"), ("GESCHLECHT", CellVal.str "M"),
          ("KW", CellVal.str "1. KW 2023"), ("COVID", CellVal.num 5)]] "AT" "ALL" "COVID")
        "1. KW 2023" "0 - 4" true = ((5 : Int) : ℚ) := by
  constructor
  · exact C1_per100k_normalisation.1
      [[("WOHNORT", CellVal.str "W"), ("STATION", CellVal.str "N"),
        ("ALTERSGRUPPE", CellVal.str "0 - 4"), ("GESCHLECHT", CellVal.str "M"),
        ("KW", CellVal.str "1. KW 2023"), ("COVID", CellVal.num 5)]] "AT" "ALL" none none
      { ageGroup := "0 - 4", gender := "M", diagnose := "COVID",
        count := 5, population := 0 } (by decide)
  · have h := C1_per100k_normalisation.2
      [[("WOHNORT", CellVal.str "W"), ("STATION", CellVal.str "N"),
        ("ALTERSGRUPPE", CellVal.str "0 - 4"), ("GESCHLECHT", CellVal.str "M"),
        ("KW", CellVal.str "1. KW 2023"), ("COVID", CellVal.num 5)]] "AT" "ALL" "COVID"
      "1. KW 2023" "0 - 4"
      { kw := "1. KW 2023", ageGroup := "0 - 4", count := 5, pop := 0, popCount := 0 }
      (by decide)
    exact h.2 rfl

/-- The lowercase hex digit characters parse back to their values. -/
theorem hexDigitChar_val (n : Nat) (h : n < 16) :
    digitValInRadix 16 (hexDigitChar n) = some n := by
  interval_cases n <;> decide

/-- Every character produced by the hex renderer is a hex digit. -/
theorem natHexDigitsAux_all_hex (fuel : Nat) :
    ∀ (n : Nat) (c : Char), c ∈ natHexDigitsAux fuel n →
      (digitValInRadix 16 c).isSome = true := by
  induction fuel with
  | zero =>
    intro n c hc
    cases hc
  | succ f ih =>
    intro n c hc
    by_cases h16 : n < 16
    · simp only [natHexDigitsAux, if_pos h16, List.mem_singleton] at hc
      subst hc
      rw [hexDigitChar_val n h16]
      rfl
    · simp only [natHexDigitsAux, if_neg h16, List.mem_append, List.mem_singleton] at hc
      rcases hc with hc | hc
      · exact ih _ _ hc
      · subst hc
        rw [hexDigitChar_val _ (Nat.mod_lt n (by norm_num))]
        rfl

/-- The hex renderer emits at least one digit. -/
theorem natHexDigitsAux_ne_nil (fuel n : Nat) (h : 0 < fuel) :
    natHexDigitsAux fuel n ≠ [] := by
  cases fuel with
  | zero => cases h
  | succ f =>
    by_cases h16 : n < 16
    · simp [natHexDigitsAux, if_pos h16]
    · simp [natHexDigitsAux, if_neg h16]

/-- Parsing the digits the hex renderer emitted recovers the value (with the
accumulator scaled by the digit count). -/
theorem goDigits_hexAux (fuel : Nat) :
    ∀ (n acc : Nat) (rest : List Char), n < 16 ^ fuel →
      goDigits 16 acc (natHexDigitsAux fuel n ++ rest)
        = goDigits 16 (acc * 16 ^ (natHexDigitsAux fuel n).length + n) rest := by
  induction fuel with
  | zero =>
    intro n acc rest h
    have hn : n = 0 := by simpa using Nat.lt_one_iff.mp (by simpa using h)
    subst hn
    simp [natHexDigitsAux]
  | succ f ih =>
    intro n acc rest h
    by_cases h16 : n < 16
    · simp only [natHexDigitsAux, if_pos h16, List.singleton_append, List.length_singleton,
        pow_one]
      simp [goDigits, hexDigitChar_val n h16]
    · simp only [natHexDigitsAux, if_neg h16, List.append_assoc, List.singleton_append,
        List.length_append, List.length_singleton]
      have hdiv : n / 16 < 16 ^ f := by
        rw [Nat.div_lt_iff_lt_mul (by norm_num)]
        rw [pow_succ] at h
        exact h
      rw [ih (n / 16) acc (hexDigitChar (n % 16) :: rest) hdiv]
      simp only [goDigits, hexDigitChar_val _ (Nat.mod_lt n (by norm_num))]
      congr 1
      have hsplit : n = n / 16 * 16 + n % 16 := by omega
      set m := n / 16 with hm
      set q := n % 16 with hq
      rw [hsplit, pow_succ]
      ring

/-- Leading zeros do not change a parsed hex value started from 0. -/
theorem goDigits_replicate_zero (k : Nat) (cs : List Char) :
    goDigits 16 0 (List.replicate k '0' ++ cs) = goDigits 16 0 cs := by
  induction k with
  | zero => rfl
  | succ m ih =>
    rw [List.replicate_succ, List.cons_append]
    show goDigits 16 0 ('0' :: (List.replicate m '0' ++ cs)) = _
    rw [show goDigits 16 0 ('0' :: (List.replicate m '0' ++ cs))
      = goDigits 16 (0 * 16 + 0) (List.replicate m '0' ++ cs) from rfl]
    simpa using ih

/-- Hex digit characters are not whitespace. -/
theorem hex_not_space (c : Char) (h : (digitValInRadix 16 c).isSome = true) :
    jsIsSpaceChar c = false := by
  cases hs : jsIsSpaceChar c
  · rfl
  · exfalso
    unfold jsIsSpaceChar at hs
    simp only [Bool.or_eq_true, beq_iff_eq] at hs
    rcases hs with ((((e | e) | e) | e) | e) | e <;> subst e <;> exact absurd h (by decide)

/-- Splitting the sign off a string that starts with a digit does nothing. -/
theorem jsSignSplit_of_digit (c0 : Char) (rest : List Char)
    (h1 : c0 ≠ '-') (h2 : c0 ≠ '+') :
    jsSignSplit (c0 :: rest) = (1, c0 :: rest) := by
  unfold jsSignSplit
  split
  next heq =>
    injection heq with e _
    exact absurd e h1
  next heq =>
    injection heq with e _
    exact absurd e h2
  next => rfl

/-- A string without `x`/`X` characters carries no hex marker. -/
theorem jsStripHexMarker_of_no_marker (c0 : Char) (rest : List Char)
    (h : ∀ c ∈ c0 :: rest, c ≠ 'x' ∧ c ≠ 'X') :
    jsStripHexMarker (c0 :: rest) = c0 :: rest := by
  unfold jsStripHexMarker
  split
  next heq =>
    exfalso
    have hx : 'x' ∈ c0 :: rest := by
      rw [heq]
      exact List.mem_cons_of_mem _ (List.mem_cons_self _ _)
    exact (h _ hx).1 rfl
  next heq =>
    exfalso
    have hx : 'X' ∈ c0 :: rest := by
      rw [heq]
      exact List.mem_cons_of_mem _ (List.mem_cons_self _ _)
    exact (h _ hx).2 rfl
  next => rfl

/-- `parseInt(s, 16)` on a nonempty all-hex-digit string is the plain hex value
of its digits. -/
theorem jsParseInt16_hexchars (cs : List Char) (hne : cs ≠ [])
    (hall : ∀ c ∈ cs, (digitValInRadix 16 c).isSome = true) :
    jsParseInt16 (String.mk cs) = some ((goDigits 16 0 cs : Nat) : Int) := by
  unfold jsParseInt16
  cases cs with
  | nil => exact absurd rfl hne
  | cons c0 rest =>
    have hc0 : (digitValInRadix 16 c0).isSome = true :=
      hall c0 (List.mem_cons_self c0 rest)
    have hdrop : (c0 :: rest).dropWhile jsIsSpaceChar = c0 :: rest := by
      rw [List.dropWhile_cons, hex_not_space c0 hc0]
      rfl
    have hminus : c0 ≠ '-' := by
      intro e
      subst e
      exact absurd hc0 (by decide)
    have hplus : c0 ≠ '+' := by
      intro e
      subst e
      exact absurd hc0 (by decide)
    have hnox : ∀ c ∈ c0 :: rest, c ≠ 'x' ∧ c ≠ 'X' := by
      intro c hc
      constructor
      · intro e
        subst e
        exact absurd (hall _ hc) (by decide)
      · intro e
        subst e
        exact absurd (hall _ hc) (by decide)
    rw [show (String.mk (c0 :: rest)).data = c0 :: rest from rfl, hdrop,
      jsSignSplit_of_digit c0 rest hminus hplus]
    dsimp only
    rw [jsStripHexMarker_of_no_marker _ _ hnox]
    unfold jsParseDigits
    dsimp only
    rw [if_pos hc0]
    simp

/-- A blend amount of 0 leaves a channel at its (clamped) value. -/
theorem lightenChannel_zero (c : Int) : lightenChannel c 0 = min 255 c := by
  unfold lightenChannel
  have h : ((c : ℚ)) + ((255 : ℚ) - (c : ℚ)) * 0 = ((c : Int) : ℚ) := by ring
  rw [h, Int.floor_intCast]

/-- A blend amount of 1 saturates a channel at 255. -/
theorem lightenChannel_one (c : Int) : lightenChannel c 1 = 255 := by
  unfold lightenChannel
  have h : ((c : ℚ)) + ((255 : ℚ) - (c : ℚ)) * 1 = (((255 : Int) : ℚ)) := by push_cast; ring
  rw [h, Int.floor_intCast]
  rfl

/-- Parsing the canonical colour rendering recovers the packed channel value. -/
theorem jsParseInt16_hexColor (r g b : Nat) (hr : r < 256) (hg : g < 256) (hb : b < 256) :
    jsParseInt16 (String.mk (stripFirstChar '#' (hexColor6 r g b).data))
      = some ((r * 65536 + g * 256 + b : Nat) : Int) := by
  have hn : r * 65536 + g * 256 + b < 16 ^ 6 := by
    have : (16 : Nat) ^ 6 = 16777216 := by norm_num
    omega
  have hfuel : r * 65536 + g * 256 + b < 16 ^ (r * 65536 + g * 256 + b + 1) :=
    lt_of_lt_of_le (Nat.lt_pow_self (by norm_num) _)
      (Nat.pow_le_pow_right (by norm_num) (Nat.le_succ _))
  have hstrip : stripFirstChar '#' (hexColor6 r g b).data
      = padStartChars 6 '0' (natHexDigits (r * 65536 + g * 256 + b)) := by
    rw [show (hexColor6 r g b).data
      = '#' :: padStartChars 6 '0' (natHexDigits (r * 65536 + g * 256 + b)) from rfl]
    simp [stripFirstChar]
  rw [hstrip]
  have hall : ∀ c ∈ padStartChars 6 '0' (natHexDigits (r * 65536 + g * 256 + b)),
      (digitValInRadix 16 c).isSome = true := by
    intro c hc
    unfold padStartChars at hc
    rw [List.mem_append] at hc
    rcases hc with hc | hc
    · rw [List.eq_of_mem_replicate hc]
      decide
    · exact natHexDigitsAux_all_hex _ _ _ hc
  have hne : padStartChars 6 '0' (natHexDigits (r * 65536 + g * 256 + b)) ≠ [] := by
    unfold padStartChars
    intro he
    rcases List.append_eq_nil.mp he with ⟨_, h2⟩
    exact natHexDigitsAux_ne_nil _ _ (by omega) h2
  rw [jsParseInt16_hexchars _ hne hall]
  congr 1
  unfold padStartChars
  rw [goDigits_replicate_zero]
  unfold natHexDigits
  rw [← List.append_nil (natHexDigitsAux (r * 65536 + g * 256 + b + 1)
    (r * 65536 + g * 256 + b)), goDigits_hexAux _ _ _ [] hfuel]
  simp [goDigits]

/-- The full behaviour of `lightenColor` on canonical colours: each channel is
interpolated by `lightenChannel` and the result re-rendered canonically. -/
theorem lightenColor_hexColor6 (r g b : Nat) (hr : r < 256) (hg : g < 256) (hb : b < 256)
    (amount : ℚ) :
    lightenColor (hexColor6 r g b) amount
      = some (String.mk ('#' :: padStartChars 6 '0' (natHexDigits
          ((lightenChannel (r : Int) amount).toNat * 65536
            + (lightenChannel (g : Int) amount).toNat * 256
            + (lightenChannel (b : Int) amount).toNat)))) := by
  unfold lightenColor
  rw [jsParseInt16_hexColor r g b hr hg hb]
  dsimp only
  have h1 : ((r * 65536 + g * 256 + b : Nat) : Int) / 65536 = (r : Int) := by
    push_cast
    omega
  have h2 : ((r * 65536 + g * 256 + b : Nat) : Int) / 256 % 256 = (g : Int) := by
    push_cast
    omega
  have h3 : ((r * 65536 + g * 256 + b : Nat) : Int) % 256 = (b : Int) := by
    push_cast
    omega
  rw [h1, h2, h3]

/-- C9 counterexample: lightening black halfway floors 127.5 to 127 per channel,
giving "#7f7f7f", not "#808080"; and an uppercase colour is re-rendered in
lowercase, so amount 0 does not return the input string unchanged. -/
theorem C9_lightenColor_counterexample :
    lightenColor "#000000" (1/2) = some "#7f7f7f"
    ∧ ("#7f7f7f" : String) ≠ "#808080"
    ∧ lightenColor "#ABCDEF" 0 = some "#abcdef"
    ∧ ("#abcdef" : String) ≠ "#ABCDEF" := by
  have hch : lightenChannel 0 (1/2) = 127 := by
    unfold lightenChannel
    have h : ((0 : Int) : ℚ) + ((255 : ℚ) - ((0 : Int) : ℚ)) * (1/2) = 255/2 := by norm_num
    rw [h]
    have h2 : ⌊(255/2 : ℚ)⌋ = 127 := by
      rw [Int.floor_eq_iff]
      norm_num
    rw [h2]
    decide
  refine ⟨?_, by decide, ?_, by decide⟩
  · unfold lightenColor
    rw [show jsParseInt16 (String.mk (stripFirstChar '#' "#000000".data)) = some 0 from
      by decide]
    dsimp only
    rw [show ((0 : Int) / 65536) = 0 from by decide,
      show ((0 : Int) / 256 % 256) = 0 from by decide,
      show ((0 : Int) % 256) = 0 from by decide, hch]
    decide
  · unfold lightenColor
    rw [show jsParseInt16 (String.mk (stripFirstChar '#' "#ABCDEF".data)) = some 11259375 from
      by decide]
    dsimp only
    rw [show ((11259375 : Int) / 65536) = 171 from by decide,
      show ((11259375 : Int) / 256 % 256) = 205 from by decide,
      show ((11259375 : Int) % 256) = 239 from by decide,
      lightenChannel_zero, lightenChannel_zero, lightenChannel_zero]
    decide

/-- C9 (amended): on canonical colours (`#` plus six lowercase hex digits as the
source itself renders them), amount 0 returns the colour unchanged, amount 1
returns "#ffffff", and any amount yields the canonical rendering of the three
channels interpolated toward 255 with `Math.floor` and clamped at 255.
`lightenColor("#000000", 0.5)` is "#7f7f7f" (floor of the midpoint 127.5), not
"#808080", and non-canonical (e.g. uppercase) spellings are returned in
canonical lowercase form rather than unchanged. -/
theorem C9_lightenColor_channels (r g b : Nat) (hr : r < 256) (hg : g < 256)
    (hb : b < 256) :
    lightenColor (hexColor6 r g b) 0 = some (hexColor6 r g b)
    ∧ lightenColor (hexColor6 r g b) 1 = some "#ffffff"
    ∧ ∀ amount : ℚ, lightenColor (hexColor6 r g b) amount
        = some (String.mk ('#' :: padStartChars 6 '0' (natHexDigits
            ((lightenChannel (r : Int) amount).toNat * 65536
              + (lightenChannel (g : Int) amount).toNat * 256
              + (lightenChannel (b : Int) amount).toNat)))) := by
  refine ⟨?_, ?_, lightenColor_hexColor6 r g b hr hg hb⟩
  · rw [lightenColor_hexColor6 r g b hr hg hb 0, lightenChannel_zero, lightenChannel_zero,
      lightenChannel_zero]
    have e1 : (min 255 (r : Int)).toNat = r := by omega
    have e2 : (min 255 (g : Int)).toNat = g := by omega
    have e3 : (min 255 (b : Int)).toNat = b := by omega
    rw [e1, e2, e3]
    rfl
  · rw [lightenColor_hexColor6 r g b hr hg hb 1, lightenChannel_one, lightenChannel_one,
      lightenChannel_one]
    decide

/-- C9 witness: the channel characterisation applies at pure black. -/
theorem C9_lightenColor_channels_witness :
    lightenColor (hexColor6 0 0 0) 0 = some (hexColor6 0 0 0)
    ∧ lightenColor (hexColor6 0 0 0) 1 = some "#ffffff"
    ∧ ∀ amount : ℚ, lightenColor (hexColor6 0 0 0) amount
        = some (String.mk ('#' :: padStartChars 6 '0' (natHexDigits
            ((lightenChannel ((0 : Nat) : Int) amount).toNat * 65536
              + (lightenChannel ((0 : Nat) : Int) amount).toNat * 256
              + (lightenChannel ((0 : Nat) : Int) amount).toNat)))) :=
  C9_lightenColor_channels 0 0 0 (by decide) (by decide) (by decide)
